import Mathlib

/-!
Shallow embedding of the SnookerManagementSystem backend (Node/Express +
Mongoose).  Money amounts and rates are modelled as rationals (`ℚ`), clock
values as integer milliseconds (`ℤ`, the value of `Date.now()`).  Every
method that reads the clock takes the current time `now : ℤ` explicitly.
JavaScript truthiness on numbers (`x || y`, `if (x)`) is modelled by an
explicit comparison with `0`, and on optional values by `Option`.

Sources embedded here:
  * `src/backend/models/Session.js`       (session schema methods)
  * `src/backend/models/UserSession.js`   (product schema, `updateStock`)
  * `src/unnamed/part_006`                (table schema, `calculateCost`)
  * `src/backend/server.js`               (SessionController endpoints)
  * `src/backend/controllers/inventoryController.js` (`updateStock` endpoint)
-/

namespace Snooker

/-- Session lifecycle status (`sessionSchema.status` enum). -/
inductive SessionStatus
  | active
  | paused
  | completed
  | cancelled
deriving DecidableEq

/-- Payment status (`sessionSchema.paymentStatus` enum). -/
inductive PaymentStatus
  | pending
  | paid
  | credit
deriving DecidableEq

/-- Pricing method (`per_minute` / `frame_kitti`). -/
inductive PricingMethod
  | per_minute
  | frame_kitti
deriving DecidableEq

/-- Payment methods accepted for session payments (`paymentSchema.method`). -/
inductive PaymentMethod
  | esewa
  | online_banking
  | cash
deriving DecidableEq

/-- Table status (`tableSchema.status` enum). -/
inductive TableStatus
  | active
  | maintenance
  | inactive
deriving DecidableEq

/-- Display label of a payment method (the `validMethods` lookup table in
`sessionSchema.methods.recordPayment`). -/
def PaymentMethod.label : PaymentMethod → String
  | .esewa => "eSewa"
  | .online_banking => "Online Banking"
  | .cash => "Cash"

/-- One purchased-item record inside a session (`sessionItemSchema`). -/
structure SessionItem where
  id : Nat
  product : Nat
  productName : String
  quantity : ℚ
  costPrice : ℚ
  sellingPrice : ℚ
  totalCost : ℚ
  totalRevenue : ℚ
  profit : ℚ
  addedAt : ℤ
deriving DecidableEq

/-- One payment record inside a session (`paymentSchema`). -/
structure Payment where
  method : PaymentMethod
  methodLabel : String
  amount : ℚ
  paidAt : ℤ
  transactionId : String
  notes : String
deriving DecidableEq

/-- The session document (`sessionSchema`).  `minuteRate` and `hourlyRate`
are optional because the schema does not require them and
`calculateGameCost` branches on `minuteRate !== undefined`; `frameRate` and
`kittiRate` are only read under `frame_kitti` pricing, where the schema
requires them, so they carry a plain `ℚ` (0 when absent). -/
structure Session where
  table : Nat
  owner : Nat
  customerName : String := "Guest"
  customerPhone : String := ""
  status : SessionStatus := .active
  startTime : ℤ
  endTime : Option ℤ := none
  pausedAt : Option ℤ := none
  totalPausedTime : ℤ := 0
  frames : ℚ := 0
  kittis : ℚ := 0
  items : List SessionItem := []
  totalItems : ℚ := 0
  totalItemsCost : ℚ := 0
  totalItemsRevenue : ℚ := 0
  totalItemsProfit : ℚ := 0
  pricingMethod : PricingMethod
  minuteRate : Option ℚ := none
  hourlyRate : Option ℚ := none
  frameRate : ℚ := 0
  kittiRate : ℚ := 0
  gameCost : ℚ := 0
  totalCost : ℚ := 0
  paymentStatus : PaymentStatus := .pending
  paymentMethod : Option PaymentMethod := none
  paymentMethodLabel : Option String := none
  payments : List Payment := []
  totalPaidAmount : ℚ := 0
  remainingAmount : ℚ := 0
  paymentNotes : String := ""
  paymentCompletedAt : Option ℤ := none
  notes : String := ""
deriving DecidableEq

/-- The product document (`productSchema` in `UserSession.js`), restricted to
the fields the embedded operations read. -/
structure Product where
  owner : Nat
  name : String
  costPrice : ℚ
  sellingPrice : ℚ
  currentStock : ℚ
deriving DecidableEq

/-- The table document (`tableSchema` in `part_006`), restricted to the
fields the embedded operations read. -/
structure Table where
  owner : Nat
  status : TableStatus := .active
  pricingMethod : PricingMethod
  hourlyRate : ℚ := 0
  frameRate : ℚ := 0
  kittiRate : ℚ := 0
  isOccupied : Bool := false
  currentBooking : Option Nat := none
deriving DecidableEq

/-- Whether a status is non-terminal, i.e. in `['active', 'paused']` (the
`$in` filter used by `sessionSchema.statics.getActiveSession` and the
controllers' `['active', 'paused'].includes(...)` checks). -/
def SessionStatus.isNonTerminal : SessionStatus → Bool
  | .active => true
  | .paused => true
  | .completed => false
  | .cancelled => false

/-- Session duration in minutes (`sessionSchema.methods.getDurationInMinutes`).
The JavaScript uses `this.endTime?.getTime() || Date.now()` and
`this.status === 'paused' && this.pausedAt`: a stored time equal to `0`
(the epoch) is falsy, which the embedding reproduces with explicit
comparisons against `0`. -/
def Session.getDurationInMinutes (s : Session) (now : ℤ) : ℤ :=
  let n : ℤ :=
    if s.status = .active then now
    else match s.endTime with
      | some t => if t = 0 then now else t
      | none => now
  let currentPauseDuration : ℤ :=
    if s.status = .paused then
      match s.pausedAt with
      | some p => if p = 0 then 0 else now - p
      | none => 0
    else 0
  Int.fdiv (n - s.startTime - s.totalPausedTime - currentPauseDuration) (1000 * 60)

/-- Game cost (`sessionSchema.methods.calculateGameCost`).  The fallback
branch `(this.hourlyRate / 60) * minutes` is only reachable on legacy
documents where `minuteRate` is absent but `hourlyRate` is present. -/
def Session.calculateGameCost (s : Session) (now : ℤ) : ℚ :=
  match s.pricingMethod with
  | .per_minute =>
    let minutes : ℤ := s.getDurationInMinutes now
    match s.minuteRate with
    | some r => r * (minutes : ℚ)
    | none => (s.hourlyRate.getD 0 / 60) * (minutes : ℚ)
  | .frame_kitti => s.frames * s.frameRate + s.kittis * s.kittiRate

/-- Current total cost (`sessionSchema.methods.calculateCurrentCost`). -/
def Session.calculateCurrentCost (s : Session) (now : ℤ) : ℚ :=
  s.calculateGameCost now + s.totalItemsRevenue

/-- Item totals recomputation (`sessionSchema.methods.calculateItemsTotals`). -/
def Session.calculateItemsTotals (s : Session) : Session :=
  let ti := s.items.foldl (fun acc i => acc + i.quantity) 0
  let tc := s.items.foldl (fun acc i => acc + i.totalCost) 0
  let tr := s.items.foldl (fun acc i => acc + i.totalRevenue) 0
  { s with totalItems := ti, totalItemsCost := tc, totalItemsRevenue := tr,
           totalItemsProfit := tr - tc }

/-- Payment amount/status recomputation
(`sessionSchema.methods.updatePaymentAmounts`). -/
def Session.updatePaymentAmounts (s : Session) (now : ℤ) : Session :=
  let tp := s.payments.foldl (fun acc p => acc + p.amount) 0
  let rem := max 0 (s.totalCost - tp)
  if tp = 0 then
    { s with totalPaidAmount := tp, remainingAmount := rem,
             paymentStatus := .pending }
  else if s.totalCost ≤ tp then
    { s with totalPaidAmount := tp, remainingAmount := rem,
             paymentStatus := .paid,
             paymentCompletedAt :=
               match s.paymentCompletedAt with
               | some t => some t
               | none => some now }
  else
    { s with totalPaidAmount := tp, remainingAmount := rem,
             paymentStatus := .credit }

/-- Total cost recomputation (`sessionSchema.methods.updateTotalCost`). -/
def Session.updateTotalCost (s : Session) (now : ℤ) : Session :=
  let s1 := s.calculateItemsTotals
  let s2 := { s1 with gameCost := s1.calculateGameCost now }
  let s3 := { s2 with totalCost := s2.gameCost + s2.totalItemsRevenue }
  s3.updatePaymentAmounts now

/-- Payment recording (`sessionSchema.methods.recordPayment`).  The method
argument is already typed, so the `validMethods` lookup always succeeds and
the `throw` branch is unreachable. -/
def Session.recordPayment (s : Session) (method : PaymentMethod) (amount : ℚ)
    (transactionId notes : String) (now : ℤ) : Session :=
  let newPayment : Payment :=
    { method := method, methodLabel := method.label, amount := amount,
      paidAt := now, transactionId := transactionId, notes := notes }
  let s1 := { s with payments := s.payments ++ [newPayment] }
  let s2 :=
    if s1.paymentMethod = none ∨ s1.payments.length = 1 then
      { s1 with paymentMethod := some method,
                paymentMethodLabel := some method.label }
    else s1
  s2.updatePaymentAmounts now

/-- Mark as fully paid (`sessionSchema.methods.markAsPaid`): records a single
payment for the remaining balance. -/
def Session.markAsPaid (s : Session) (method : PaymentMethod)
    (transactionId notes : String) (now : ℤ) : Session :=
  s.recordPayment method (s.totalCost - s.totalPaidAmount) transactionId notes now

/-- Mark as credit (`sessionSchema.methods.markAsCredit`): sets the status
directly with no payment entry. -/
def Session.markAsCredit (s : Session) (notes : String) : Session :=
  { s with paymentStatus := .credit,
           paymentNotes :=
             if notes = "" then "Payment credited - to be collected later"
             else notes }

/-- Add an item snapshot to the session (`sessionSchema.methods.addItem`). -/
def Session.addItem (s : Session) (id product : Nat) (productName : String)
    (quantity costPrice sellingPrice : ℚ) (now : ℤ) : Session :=
  let totalCost := costPrice * quantity
  let totalRevenue := sellingPrice * quantity
  let newItem : SessionItem :=
    { id := id, product := product, productName := productName,
      quantity := quantity, costPrice := costPrice,
      sellingPrice := sellingPrice, totalCost := totalCost,
      totalRevenue := totalRevenue, profit := totalRevenue - totalCost,
      addedAt := now }
  let s1 := { s with items := s.items ++ [newItem] }
  let s2 := s1.calculateItemsTotals
  let s3 := { s2 with totalCost := s2.calculateGameCost now + s2.totalItemsRevenue }
  s3.updatePaymentAmounts now

/-- Remove an item by id (`sessionSchema.methods.removeItem`). -/
def Session.removeItem (s : Session) (itemId : Nat) (now : ℤ) : Session :=
  let s1 := { s with items := s.items.filter (fun i => i.id ≠ itemId) }
  let s2 := s1.calculateItemsTotals
  let s3 := { s2 with totalCost := s2.calculateGameCost now + s2.totalItemsRevenue }
  s3.updatePaymentAmounts now

/-- Stock mutation (`productSchema.methods.updateStock`): `add` increments,
`subtract` and `set` clamp at zero, any other operation string is a no-op. -/
def Product.updateStock (p : Product) (quantity : ℚ) (operation : String) : Product :=
  if operation = "add" then
    { p with currentStock := p.currentStock + quantity }
  else if operation = "subtract" then
    { p with currentStock := max 0 (p.currentStock - quantity) }
  else if operation = "set" then
    { p with currentStock := max 0 quantity }
  else p

/-- Parameters object of `tableSchema.methods.calculateCost`. -/
structure CostParams where
  minutes : Option ℚ := none
  frames : ℚ := 0
  kittis : ℚ := 0
deriving DecidableEq

/-- Table-side cost calculation (`tableSchema.methods.calculateCost` in
`part_006`): per-minute pricing charges `hourlyRate / 60` per minute and
throws when `minutes` is absent or `0` (the `!minutes` truthiness check). -/
def Table.calculateCost (t : Table) (params : CostParams) : Except String ℚ :=
  match t.pricingMethod with
  | .per_minute =>
    match params.minutes with
    | some m =>
      if m = 0 then .error "Minutes required for per-minute pricing"
      else .ok ((t.hourlyRate / 60) * m)
    | none => .error "Minutes required for per-minute pricing"
  | .frame_kitti => .ok (params.frames * t.frameRate + params.kittis * t.kittiRate)

/-! ## Controller layer

The `SessionController` endpoints in `server.js` and the inventory stock
endpoint operate on a store of tables, sessions and products keyed by id.
The store is modelled as association lists; `Model.findById` becomes
`lookupId` and an in-place document save becomes `updateId`.  Every failure
response (`res.status(...).json({success: false, ...})`) becomes an
`Except.error` carrying the status code, message and — for the end-session
payment gate — the `requiresPaymentConfirmation` flag and `sessionCost`. -/

/-- Error payload of a failed endpoint call. -/
structure ErrorResponse where
  statusCode : Nat
  message : String
  requiresPaymentConfirmation : Bool := false
  sessionCost : Option ℚ := none
deriving DecidableEq

/-- Store lookup by id (`Model.findById`). -/
def lookupId {α : Type} (l : List (Nat × α)) (id : Nat) : Option α :=
  (l.find? (fun e => e.1 = id)).map Prod.snd

/-- Store update by id (saving a mutated document back). -/
def updateId {α : Type} (l : List (Nat × α)) (id : Nat) (f : α → α) :
    List (Nat × α) :=
  l.map (fun e => if e.1 = id then (e.1, f e.2) else e)

/-- The persistent store the controllers act on. -/
structure AppState where
  tables : List (Nat × Table)
  sessions : List (Nat × Session)
  products : List (Nat × Product)
deriving DecidableEq

/-- A fresh document id, standing in for MongoDB ObjectId generation. -/
def AppState.freshSessionId (st : AppState) : Nat :=
  (st.sessions.map Prod.fst).foldr max 0 + 1

/-- The filter `{ table: tableId, status: { $in: ['active', 'paused'] } }`
of `sessionSchema.statics.getActiveSession`, as a predicate on a stored
session entry. -/
def isOpenFor (tableId : Nat) (e : Nat × Session) : Bool :=
  e.2.table = tableId ∧ e.2.status.isNonTerminal

/-- Lookup of the open session of a table
(`sessionSchema.statics.getActiveSession`): the first stored session whose
`table` matches and whose status is in `['active', 'paused']`. -/
def AppState.getActiveSession (st : AppState) (tableId : Nat) :
    Option (Nat × Session) :=
  st.sessions.find? (isOpenFor tableId)

/-- `SessionController.startSession`: guards (table found, ownership, table
active, not occupied, no open session), then creates a session snapshotting
the table pricing — note `sessionData.minuteRate = table.hourlyRate` — and
marks the table occupied. -/
def AppState.startSession (st : AppState) (user tableId : Nat)
    (customerName : Option String) (newSessionId : Nat) (now : ℤ) :
    Except ErrorResponse (AppState × Nat) :=
  match lookupId st.tables tableId with
  | none => .error { statusCode := 404, message := "Table not found" }
  | some table =>
    if table.owner ≠ user then
      .error { statusCode := 403,
               message := "Access denied. You can only manage your own tables." }
    else if table.status ≠ .active then
      .error { statusCode := 400, message := "Table is not available for booking" }
    else if table.isOccupied then
      .error { statusCode := 400, message := "Table is already occupied" }
    else match st.getActiveSession tableId with
      | some _ =>
        .error { statusCode := 400, message := "Table already has an active session" }
      | none =>
        let finalCustomerName :=
          match customerName with
          | some c => if c.trim = "" then "Guest" else c.trim
          | none => "Guest"
        let sess : Session :=
          { table := tableId, owner := user, customerName := finalCustomerName,
            status := .active, startTime := now,
            pricingMethod := table.pricingMethod,
            minuteRate :=
              if table.pricingMethod = .per_minute then some table.hourlyRate
              else none,
            frameRate :=
              if table.pricingMethod = .frame_kitti then table.frameRate else 0,
            kittiRate :=
              if table.pricingMethod = .frame_kitti then table.kittiRate else 0 }
        let st1 : AppState :=
          { st with
            sessions := (newSessionId, sess) :: st.sessions,
            tables := updateId st.tables tableId
              (fun t => { t with isOccupied := true,
                                 currentBooking := some newSessionId }) }
        .ok (st1, newSessionId)

/-- `SessionController.pauseSession`: only an active session may pause;
records `pausedAt = now`. -/
def AppState.pauseSession (st : AppState) (user sessionId : Nat) (now : ℤ) :
    Except ErrorResponse AppState :=
  match lookupId st.sessions sessionId with
  | none => .error { statusCode := 404, message := "Session not found" }
  | some s =>
    if s.owner ≠ user then
      .error { statusCode := 403,
               message := "Access denied. You can only pause your own sessions." }
    else if s.status ≠ .active then
      .error { statusCode := 400, message := "Session is not active" }
    else
      let sessions1 := updateId st.sessions sessionId
        (fun x => { x with status := .paused, pausedAt := some now })
      .ok { st with sessions := sessions1 }

/-- The session mutation `SessionController.resumeSession` performs: set the
status active and, when `pausedAt` is truthy, fold the pause into
`totalPausedTime` and clear it. -/
def Session.resumeTransform (s : Session) (now : ℤ) : Session :=
  let s1 := { s with status := SessionStatus.active }
  match s1.pausedAt with
  | some p =>
    if p = 0 then s1
    else { s1 with totalPausedTime := s1.totalPausedTime + (now - p),
                   pausedAt := none }
  | none => s1

/-- `SessionController.resumeSession`: only a paused session may resume. -/
def AppState.resumeSession (st : AppState) (user sessionId : Nat) (now : ℤ) :
    Except ErrorResponse AppState :=
  match lookupId st.sessions sessionId with
  | none => .error { statusCode := 404, message := "Session not found" }
  | some s =>
    if s.owner ≠ user then
      .error { statusCode := 403,
               message := "Access denied. You can only resume your own sessions." }
    else if s.status ≠ .paused then
      .error { statusCode := 400, message := "Session is not paused" }
    else
      let sessions1 := updateId st.sessions sessionId (fun x => x.resumeTransform now)
      .ok { st with sessions := sessions1 }

/-- The session mutation `SessionController.endSession` performs once all
guards pass: mark completed, stamp `endTime`, optionally overwrite notes,
fold an open pause, and recompute all totals. -/
def Session.endTransform (s : Session) (notes : Option String) (now : ℤ) :
    Session :=
  let s1 := { s with status := SessionStatus.completed, endTime := some now,
                     notes := match notes with
                              | some n => if n = "" then s.notes else n
                              | none => s.notes }
  let s2 :=
    match s1.pausedAt with
    | some p =>
      if p = 0 then s1
      else { s1 with totalPausedTime := s1.totalPausedTime + (now - p),
                     pausedAt := none }
    | none => s1
  s2.updateTotalCost now

/-- `SessionController.endSession`: guards (found, ownership, status in
`['active', 'paused']`, payment not pending — the pending failure carries
`requiresPaymentConfirmation: true` and the current computed cost), then
applies `Session.endTransform` and frees the table. -/
def AppState.endSession (st : AppState) (user sessionId : Nat)
    (notes : Option String) (now : ℤ) : Except ErrorResponse AppState :=
  match lookupId st.sessions sessionId with
  | none => .error { statusCode := 404, message := "Session not found" }
  | some s =>
    if s.owner ≠ user then
      .error { statusCode := 403,
               message := "Access denied. You can only end your own sessions." }
    else if ¬ (s.status = .active ∨ s.status = .paused) then
      .error { statusCode := 400, message := "Session is not active or paused" }
    else if s.paymentStatus = .pending then
      .error { statusCode := 400,
               message := "Payment confirmation required before ending session",
               requiresPaymentConfirmation := true,
               sessionCost := some (s.calculateCurrentCost now) }
    else
      let sessions1 := updateId st.sessions sessionId (fun x => x.endTransform notes now)
      let st1 := { st with sessions := sessions1 }
      let tables1 := updateId st1.tables s.table
        (fun t => { t with isOccupied := false, currentBooking := none })
      .ok { st1 with tables := tables1 }

/-- Requested payment status of `SessionController.confirmPayment` (the
request is rejected unless it is `paid` or `credit`). -/
inductive ConfirmStatus
  | paid
  | credit
deriving DecidableEq

/-- `SessionController.confirmPayment`: validates the method when marking as
paid, guards (found, ownership, status in `['active', 'paused']`), recomputes
totals, then either `markAsPaid` or `markAsCredit`. -/
def AppState.confirmPayment (st : AppState) (user sessionId : Nat)
    (pStatus : ConfirmStatus) (method : Option PaymentMethod)
    (transactionId paymentNotes : String) (now : ℤ) :
    Except ErrorResponse AppState :=
  if pStatus = .paid ∧ method = none then
    .error { statusCode := 400,
             message := "Valid payment method is required when marking as paid" }
  else match lookupId st.sessions sessionId with
  | none => .error { statusCode := 404, message := "Session not found" }
  | some s =>
    if s.owner ≠ user then
      .error { statusCode := 403,
               message := "Access denied. You can only confirm payment for your own sessions." }
    else if ¬ (s.status = .active ∨ s.status = .paused) then
      .error { statusCode := 400,
               message := "Can only confirm payment for active or paused sessions" }
    else
      let s1 := s.updateTotalCost now
      let s2 :=
        match pStatus, method with
        | .paid, some m => s1.markAsPaid m transactionId paymentNotes now
        | .paid, none => s1
        | .credit, _ =>
          s1.markAsCredit
            (if paymentNotes = "" then "Payment credited - to be collected later"
             else paymentNotes)
      .ok { st with sessions := updateId st.sessions sessionId (fun _ => s2) }

/-- The per-item stock-restoration loop of `SessionController.cancelSession`
(`for (const item of session.items) { ... product.updateStock(item.quantity,
'add') }`; a missing product is skipped, which `updateId` reproduces as a
no-op). -/
def restoreStock (products : List (Nat × Product)) (items : List SessionItem) :
    List (Nat × Product) :=
  items.foldl
    (fun ps item =>
      updateId ps item.product (fun p => p.updateStock item.quantity "add"))
    products

/-- The session mutation `SessionController.cancelSession` performs: mark
cancelled, stamp `endTime`, and reset every payment bookkeeping field. -/
def Session.cancelTransform (s : Session) (now : ℤ) : Session :=
  { s with status := .cancelled, endTime := some now,
           paymentStatus := .pending, paymentMethod := none,
           paymentMethodLabel := none, totalPaidAmount := 0,
           remainingAmount := 0, payments := [],
           paymentNotes := "Session cancelled - payment reset" }

/-- `SessionController.cancelSession`: guards (found, ownership, not already
completed), restores stock for every item, marks the session cancelled with
all payment bookkeeping reset, and frees the table. -/
def AppState.cancelSession (st : AppState) (user sessionId : Nat) (now : ℤ) :
    Except ErrorResponse AppState :=
  match lookupId st.sessions sessionId with
  | none => .error { statusCode := 404, message := "Session not found" }
  | some s =>
    if s.owner ≠ user then
      .error { statusCode := 403,
               message := "Access denied. You can only cancel your own sessions." }
    else if s.status = .completed then
      .error { statusCode := 400, message := "Cannot cancel completed sessions" }
    else
      let products1 := restoreStock st.products s.items
      let sessions1 := updateId st.sessions sessionId
        (fun _ => s.cancelTransform now)
      let st1 := { st with products := products1, sessions := sessions1 }
      let tables1 := updateId st1.tables s.table
        (fun t => { t with isOccupied := false, currentBooking := none })
      .ok { st1 with tables := tables1 }

/-- `SessionController.addItemToSession`: validates `quantity ≥ 1`, guards
(session found, ownership, status in `['active', 'paused']`, product found,
product ownership, sufficient stock), appends the snapshot (quantity passed
through `parseInt`, i.e. truncated) and subtracts the stock. -/
def AppState.addItemToSession (st : AppState) (user sessionId productId : Nat)
    (quantity : ℚ) (newItemId : Nat) (now : ℤ) : Except ErrorResponse AppState :=
  if quantity < 1 then
    .error { statusCode := 400,
             message := "Product ID and valid quantity are required" }
  else match lookupId st.sessions sessionId with
  | none => .error { statusCode := 404, message := "Session not found" }
  | some s =>
    if s.owner ≠ user then
      .error { statusCode := 403,
               message := "Access denied. You can only add items to your own sessions." }
    else if ¬ (s.status = .active ∨ s.status = .paused) then
      .error { statusCode := 400,
               message := "Can only add items to active or paused sessions" }
    else match lookupId st.products productId with
    | none => .error { statusCode := 404, message := "Product not found" }
    | some p =>
      if p.owner ≠ user then
        .error { statusCode := 403, message := "Access denied for this product" }
      else if p.currentStock < quantity then
        .error { statusCode := 400, message := "Insufficient stock" }
      else
        let s2 := s.addItem newItemId productId p.name ((⌊quantity⌋ : ℤ) : ℚ)
                    p.costPrice p.sellingPrice now
        let sessions1 := updateId st.sessions sessionId (fun _ => s2)
        let products1 := updateId st.products productId
          (fun q => q.updateStock quantity "subtract")
        .ok { st with sessions := sessions1, products := products1 }

/-- `SessionController.removeItemFromSession`: guards (session found,
ownership, status in `['active', 'paused']`, item found), restores the
stock and removes the item. -/
def AppState.removeItemFromSession (st : AppState) (user sessionId itemId : Nat)
    (now : ℤ) : Except ErrorResponse AppState :=
  match lookupId st.sessions sessionId with
  | none => .error { statusCode := 404, message := "Session not found" }
  | some s =>
    if s.owner ≠ user then
      .error { statusCode := 403,
               message := "Access denied. You can only modify your own sessions." }
    else if ¬ (s.status = .active ∨ s.status = .paused) then
      .error { statusCode := 400,
               message := "Can only remove items from active or paused sessions" }
    else match s.items.find? (fun i => i.id = itemId) with
    | none => .error { statusCode := 404, message := "Item not found in this session" }
    | some item =>
      let products1 := updateId st.products item.product
        (fun p => p.updateStock item.quantity "add")
      let sessions1 := updateId st.sessions sessionId (fun _ => s.removeItem itemId now)
      .ok { st with products := products1, sessions := sessions1 }

/-- `InventoryController.updateStock` endpoint: guards (product found,
ownership, `quantity > 0`), then applies `Product.updateStock` with the
request operation string (default `add`). -/
def AppState.updateStockEndpoint (st : AppState) (user productId : Nat)
    (quantity : ℚ) (operation : String) : Except ErrorResponse AppState :=
  match lookupId st.products productId with
  | none => .error { statusCode := 404, message := "Product not found" }
  | some p =>
    if p.owner ≠ user then
      .error { statusCode := 403,
               message := "Access denied. You can only update your own products." }
    else if quantity ≤ 0 then
      .error { statusCode := 400, message := "Valid quantity is required" }
    else
      let products1 := updateId st.products productId
        (fun q => q.updateStock quantity operation)
      .ok { st with products := products1 }

/-! ## Helper lemmas -/

/-- Sum of the recorded payment amounts (the `reduce` in
`updatePaymentAmounts`). -/
def sumAmounts (ps : List Payment) : ℚ :=
  ps.foldl (fun acc p => acc + p.amount) 0

theorem foldl_add_amount (ps : List Payment) (a : ℚ) :
    ps.foldl (fun acc p => acc + p.amount) a = a + sumAmounts ps := by
  induction ps generalizing a with
  | nil => simp [sumAmounts]
  | cons p ps ih =>
    simp only [sumAmounts, List.foldl_cons, zero_add] at *
    rw [ih, ih p.amount, add_assoc]

theorem sumAmounts_append (l1 l2 : List Payment) :
    sumAmounts (l1 ++ l2) = sumAmounts l1 + sumAmounts l2 := by
  simp only [sumAmounts, List.foldl_append]
  rw [foldl_add_amount, sumAmounts]

/-- The cost-relevant fields of a session: exactly the fields read by
`getDurationInMinutes` and `calculateGameCost`. -/
def costFields (s : Session) :
    SessionStatus × ℤ × Option ℤ × Option ℤ × ℤ × PricingMethod ×
      Option ℚ × Option ℚ × ℚ × ℚ × ℚ × ℚ :=
  (s.status, s.startTime, s.endTime, s.pausedAt, s.totalPausedTime,
   s.pricingMethod, s.minuteRate, s.hourlyRate, s.frames, s.frameRate,
   s.kittis, s.kittiRate)

theorem getDurationInMinutes_congr {a b : Session} (now : ℤ)
    (h : costFields a = costFields b) :
    a.getDurationInMinutes now = b.getDurationInMinutes now := by
  simp only [costFields, Prod.mk.injEq] at h
  obtain ⟨h1, h2, h3, h4, h5, _, _, _, _, _, _, _⟩ := h
  simp only [Session.getDurationInMinutes, h1, h2, h3, h4, h5]

theorem calculateGameCost_congr {a b : Session} (now : ℤ)
    (h : costFields a = costFields b) :
    a.calculateGameCost now = b.calculateGameCost now := by
  have hd := getDurationInMinutes_congr now h
  simp only [costFields, Prod.mk.injEq] at h
  obtain ⟨_, _, _, _, _, h6, h7, h8, h9, h10, h11, h12⟩ := h
  simp only [Session.calculateGameCost, h6, h7, h8, h9, h10, h11, h12, hd]

theorem upa_costFields (s : Session) (now : ℤ) :
    costFields (s.updatePaymentAmounts now) = costFields s := by
  simp only [Session.updatePaymentAmounts]
  split
  · rfl
  · split <;> rfl

theorem upa_items (s : Session) (now : ℤ) :
    (s.updatePaymentAmounts now).items = s.items := by
  simp only [Session.updatePaymentAmounts]
  split
  · rfl
  · split <;> rfl

theorem upa_gameCost (s : Session) (now : ℤ) :
    (s.updatePaymentAmounts now).gameCost = s.gameCost := by
  simp only [Session.updatePaymentAmounts]
  split
  · rfl
  · split <;> rfl

theorem upa_totalCost (s : Session) (now : ℤ) :
    (s.updatePaymentAmounts now).totalCost = s.totalCost := by
  simp only [Session.updatePaymentAmounts]
  split
  · rfl
  · split <;> rfl

theorem upa_totalItemsRevenue (s : Session) (now : ℤ) :
    (s.updatePaymentAmounts now).totalItemsRevenue = s.totalItemsRevenue := by
  simp only [Session.updatePaymentAmounts]
  split
  · rfl
  · split <;> rfl

theorem upa_payments (s : Session) (now : ℤ) :
    (s.updatePaymentAmounts now).payments = s.payments := by
  simp only [Session.updatePaymentAmounts]
  split
  · rfl
  · split <;> rfl

theorem upa_status (s : Session) (now : ℤ) :
    (s.updatePaymentAmounts now).status = s.status := by
  simp only [Session.updatePaymentAmounts]
  split
  · rfl
  · split <;> rfl

theorem upa_owner (s : Session) (now : ℤ) :
    (s.updatePaymentAmounts now).owner = s.owner := by
  simp only [Session.updatePaymentAmounts]
  split
  · rfl
  · split <;> rfl

theorem upa_table (s : Session) (now : ℤ) :
    (s.updatePaymentAmounts now).table = s.table := by
  simp only [Session.updatePaymentAmounts]
  split
  · rfl
  · split <;> rfl

/-- Derived payment fields after `updatePaymentAmounts`, in terms of the
payment sum. -/
theorem upa_spec (s : Session) (now : ℤ) :
    (s.updatePaymentAmounts now).totalPaidAmount = sumAmounts s.payments ∧
    (s.updatePaymentAmounts now).remainingAmount =
      max 0 (s.totalCost - sumAmounts s.payments) ∧
    (s.updatePaymentAmounts now).paymentStatus =
      (if sumAmounts s.payments = 0 then PaymentStatus.pending
       else if s.totalCost ≤ sumAmounts s.payments then PaymentStatus.paid
       else PaymentStatus.credit) := by
  simp only [Session.updatePaymentAmounts, sumAmounts]
  split
  · next h => simp [h]
  · next h =>
    split
    · next h2 => simp [h, h2]
    · next h2 => simp [h, h2]

theorem lookupId_cons {α : Type} (e : Nat × α) (l : List (Nat × α)) (id : Nat) :
    lookupId (e :: l) id = if e.1 = id then some e.2 else lookupId l id := by
  by_cases h : e.1 = id
  · rw [if_pos h]
    unfold lookupId
    rw [List.find?_cons_of_pos _ (by simpa using h)]
    rfl
  · rw [if_neg h]
    unfold lookupId
    rw [List.find?_cons_of_neg _ (by simpa using h)]

theorem updateId_cons {α : Type} (e : Nat × α) (l : List (Nat × α)) (id : Nat)
    (f : α → α) :
    updateId (e :: l) id f =
      (if e.1 = id then (e.1, f e.2) else e) :: updateId l id f := rfl

theorem lookupId_updateId_self {α : Type} (l : List (Nat × α)) (id : Nat)
    (f : α → α) :
    lookupId (updateId l id f) id = (lookupId l id).map f := by
  induction l with
  | nil => rfl
  | cons e l ih =>
    rw [updateId_cons, lookupId_cons e l id]
    by_cases h : e.1 = id
    · rw [if_pos h, if_pos h, lookupId_cons]
      simp [h]
    · rw [if_neg h, if_neg h, lookupId_cons, if_neg h]
      exact ih

theorem lookupId_updateId_ne {α : Type} (l : List (Nat × α)) (id id' : Nat)
    (f : α → α) (h : id' ≠ id) :
    lookupId (updateId l id f) id' = lookupId l id' := by
  induction l with
  | nil => rfl
  | cons e l ih =>
    rw [updateId_cons, lookupId_cons e l id']
    by_cases he : e.1 = id
    · have hne : ¬ e.1 = id' := by
        rw [he]
        exact fun hh => h hh.symm
      rw [if_pos he, lookupId_cons]
      simp only []
      rw [if_neg (by rw [he]; exact fun hh => h hh.symm), if_neg hne]
      exact ih
    · rw [if_neg he, lookupId_cons]
      by_cases he' : e.1 = id'
      · rw [if_pos he', if_pos he']
      · rw [if_neg he', if_neg he']
        exact ih

theorem cit_items (s : Session) : s.calculateItemsTotals.items = s.items := rfl

theorem cit_costFields (s : Session) :
    costFields s.calculateItemsTotals = costFields s := rfl

theorem cit_totalItemsRevenue (s : Session) :
    s.calculateItemsTotals.totalItemsRevenue =
      s.items.foldl (fun acc i => acc + i.totalRevenue) 0 := rfl

theorem utc_gameCost (s : Session) (now : ℤ) :
    (s.updateTotalCost now).gameCost = s.calculateItemsTotals.calculateGameCost now := by
  simp only [Session.updateTotalCost, upa_gameCost]

theorem utc_items (s : Session) (now : ℤ) :
    (s.updateTotalCost now).items = s.items := by
  simp only [Session.updateTotalCost, upa_items]
  rfl

theorem utc_costFields (s : Session) (now : ℤ) :
    costFields (s.updateTotalCost now) = costFields s := by
  simp only [Session.updateTotalCost, upa_costFields]
  rfl

theorem utc_totalItemsRevenue (s : Session) (now : ℤ) :
    (s.updateTotalCost now).totalItemsRevenue =
      s.calculateItemsTotals.totalItemsRevenue := by
  simp only [Session.updateTotalCost, upa_totalItemsRevenue]

theorem utc_totalCost (s : Session) (now : ℤ) :
    (s.updateTotalCost now).totalCost =
      s.calculateItemsTotals.calculateGameCost now +
        s.calculateItemsTotals.totalItemsRevenue := by
  simp only [Session.updateTotalCost, upa_totalCost]

/-! ## Claims -/

/-- C8: the total recompute (`updateTotalCost`) is idempotent at a fixed
current time: running it twice with no intervening mutation yields the same
`gameCost`, `totalItemsRevenue` and `totalCost` as running it once. -/
theorem C8_updateTotalCost_idempotent (s : Session) (now : ℤ) :
    ((s.updateTotalCost now).updateTotalCost now).gameCost =
      (s.updateTotalCost now).gameCost ∧
    ((s.updateTotalCost now).updateTotalCost now).totalItemsRevenue =
      (s.updateTotalCost now).totalItemsRevenue ∧
    ((s.updateTotalCost now).updateTotalCost now).totalCost =
      (s.updateTotalCost now).totalCost := by
  have hitems : (s.updateTotalCost now).items = s.items := utc_items s now
  have hcf : costFields ((s.updateTotalCost now).calculateItemsTotals) =
      costFields s.calculateItemsTotals := by
    rw [cit_costFields, utc_costFields, cit_costFields]
  have hg : (s.updateTotalCost now).calculateItemsTotals.calculateGameCost now =
      s.calculateItemsTotals.calculateGameCost now :=
    calculateGameCost_congr now hcf
  have hr : (s.updateTotalCost now).calculateItemsTotals.totalItemsRevenue =
      s.calculateItemsTotals.totalItemsRevenue := by
    rw [cit_totalItemsRevenue, cit_totalItemsRevenue, hitems]
  refine ⟨?_, ?_, ?_⟩
  · rw [utc_gameCost, utc_gameCost, hg]
  · rw [utc_totalItemsRevenue, utc_totalItemsRevenue, hr]
  · rw [utc_totalCost, utc_totalCost, hg, hr]

/-- Venue fixture shared by the concrete scenarios: one per-minute table
whose stored `hourlyRate` is `100`, and one product bought at 50 and sold
at 80 with 10 units in stock. -/
def baseTable : Table :=
  { owner := 0, status := .active, pricingMethod := .per_minute,
    hourlyRate := 100 }

def baseProduct : Product :=
  { owner := 0, name := "Cola", costPrice := 50, sellingPrice := 80,
    currentStock := 10 }

def baseState : AppState :=
  { tables := [(1, baseTable)], sessions := [], products := [(5, baseProduct)] }

/-- Scenario run for C1: start a session on the per-minute table at time 0,
add 2 units of the product, then read the cost 30 minutes later. -/
def c1Run : Except ErrorResponse AppState :=
  match baseState.startSession 0 1 none 1 0 with
  | .error e => .error e
  | .ok r => r.1.addItemToSession 0 r.2 5 2 1 0

section
attribute [local semireducible] Rat.mul Rat.add Rat.sub Rat.inv

/-- C1 (code bug): on the per-minute table whose stored `hourlyRate` is
100, a session started by `startSession` charges the full 100 per elapsed
minute, because `server.js` line 573 assigns `sessionData.minuteRate =
table.hourlyRate` without dividing by 60.  After 30 active minutes with 2
items sold at 80, `calculateCurrentCost` returns `3160`, not the claimed
`≈ 210`; the table schema itself (`tableSchema.methods.calculateCost`)
charges `hourlyRate / 60` per minute, which would give `50 + 160 = 210` as
the claim states. -/
theorem C1_minute_rate_code_bug :
    (c1Run.toOption.map fun st =>
        (lookupId st.sessions 1).map fun s => s.calculateCurrentCost 1800000)
      = some (some 3160) ∧
    baseTable.calculateCost { minutes := some 30 } = .ok 50 ∧
    (50 : ℚ) + 2 * 80 = 210 ∧ (3160 : ℚ) ≠ 210 :=
  ⟨by decide, by norm_num [Table.calculateCost, baseTable], by norm_num, by norm_num⟩

end

/-- Elapsed-minute formula as the spec states it (spec section 4.1):
`elapsed = (now_or_endTime − startTime − cumulativePausedTime −
currentPauseDurationIfPaused)`, floored to whole minutes. -/
def specElapsedMinutes (startTime : ℤ) (endTime : Option ℤ)
    (pausedAt : Option ℤ) (totalPausedTime : ℤ) (isPaused : Bool) (now : ℤ) :
    ℤ :=
  let stop := endTime.getD now
  let currentPause : ℤ :=
    if isPaused then
      match pausedAt with
      | some p => now - p
      | none => 0
    else 0
  Int.fdiv (stop - startTime - totalPausedTime - currentPause) (1000 * 60)

/-- Scenario run for C2: start at time 0, pause at minute 10, resume at
minute 20, confirm payment as credit and end at minute 30. -/
def c2Run : Except ErrorResponse AppState :=
  match baseState.startSession 0 1 none 1 0 with
  | .error e => .error e
  | .ok r =>
    match r.1.pauseSession 0 r.2 600000 with
    | .error e => .error e
    | .ok st2 =>
      match st2.resumeSession 0 r.2 1200000 with
      | .error e => .error e
      | .ok st3 =>
        match st3.confirmPayment 0 r.2 .credit none "" "" 1800000 with
        | .error e => .error e
        | .ok st4 => st4.endSession 0 r.2 none 1800000

section
attribute [local semireducible] Rat.mul Rat.add Rat.sub Rat.inv

/-- C2 (confirmed): the reported duration is
`floor((endTimeOrNow − startTime − cumulative pause − current pause)/1min)`;
the pause/resume/end scenario at minutes 10/20/30 reports 20 active
minutes; and resuming adds exactly `resume time − pausedAt` to the
cumulative paused time.  Hypotheses: an active session has no `endTime`
(true of every reachable session, as `endTime` is only ever set together
with a terminal status), and stored clock values are not the epoch `0`
(JavaScript treats a zero time as falsy). -/
theorem C2_elapsed_time (s : Session) (now : ℤ)
    (hact : s.status = .active → s.endTime = none)
    (hend : s.endTime ≠ some 0) (hpaused : s.pausedAt ≠ some 0) :
    s.getDurationInMinutes now =
      specElapsedMinutes s.startTime s.endTime s.pausedAt s.totalPausedTime
        (s.status == .paused) now ∧
    (c2Run.toOption.map fun st =>
        (lookupId st.sessions 1).map fun x => x.getDurationInMinutes 1800000)
      = some (some 20) ∧
    (∀ (x : Session) (p n : ℤ), x.pausedAt = some p → p ≠ 0 →
      (x.resumeTransform n).totalPausedTime = x.totalPausedTime + (n - p)) := by
  refine ⟨?_, by decide, ?_⟩
  · unfold Session.getDurationInMinutes specElapsedMinutes
    cases hs : s.status with
    | active =>
      have he := hact hs
      simp [he, hs]
    | paused =>
      simp only [hs]
      cases he : s.endTime with
      | none =>
        cases hp : s.pausedAt with
        | none => simp
        | some p =>
          have hp0 : p ≠ 0 := fun h => hpaused (by rw [hp, h])
          simp [hp0]
      | some t =>
        have ht0 : t ≠ 0 := fun h => hend (by rw [he, h])
        cases hp : s.pausedAt with
        | none => simp [ht0]
        | some p =>
          have hp0 : p ≠ 0 := fun h => hpaused (by rw [hp, h])
          simp [ht0, hp0]
    | completed =>
      simp only [hs]
      cases he : s.endTime with
      | none => simp
      | some t =>
        have ht0 : t ≠ 0 := fun h => hend (by rw [he, h])
        simp [ht0]
    | cancelled =>
      simp only [hs]
      cases he : s.endTime with
      | none => simp
      | some t =>
        have ht0 : t ≠ 0 := fun h => hend (by rw [he, h])
        simp [ht0]
  · intro x p n hx hp
    simp [Session.resumeTransform, hx, hp]

/-- Witness session for C2: completed, started at 0, ended at minute 30
with 10 minutes of accumulated pause. -/
def c2WitnessSession : Session :=
  { table := 1, owner := 0, startTime := 0, status := .completed,
    endTime := some 1800000, totalPausedTime := 600000,
    pricingMethod := .per_minute, minuteRate := some 100 }

theorem C2_elapsed_time_witness :
    c2WitnessSession.getDurationInMinutes 1800000 =
      specElapsedMinutes c2WitnessSession.startTime c2WitnessSession.endTime
        c2WitnessSession.pausedAt c2WitnessSession.totalPausedTime
        (c2WitnessSession.status == .paused) 1800000 ∧
    (c2Run.toOption.map fun st =>
        (lookupId st.sessions 1).map fun x => x.getDurationInMinutes 1800000)
      = some (some 20) ∧
    (∀ (x : Session) (p n : ℤ), x.pausedAt = some p → p ≠ 0 →
      (x.resumeTransform n).totalPausedTime = x.totalPausedTime + (n - p)) :=
  C2_elapsed_time c2WitnessSession 1800000 (by decide) (by decide) (by decide)

end

theorem sumAmounts_cons (p : Payment) (l : List Payment) :
    sumAmounts (p :: l) = p.amount + sumAmounts l := by
  simp only [sumAmounts, List.foldl_cons, zero_add]
  exact foldl_add_amount l p.amount

theorem sumAmounts_eq_sum_map (l : List Payment) :
    sumAmounts l = (l.map Payment.amount).sum := by
  induction l with
  | nil => rfl
  | cons p l ih => rw [sumAmounts_cons, List.map_cons, List.sum_cons, ih]

/-- Self-referential form of `upa_spec`: the derived payment fields of any
`updatePaymentAmounts` result satisfy the pending/paid/credit derivation
with respect to the result's own payments and total cost. -/
theorem upa_derived (x : Session) (now : ℤ) :
    (x.updatePaymentAmounts now).totalPaidAmount =
      sumAmounts (x.updatePaymentAmounts now).payments ∧
    (x.updatePaymentAmounts now).remainingAmount =
      max 0 ((x.updatePaymentAmounts now).totalCost -
        sumAmounts (x.updatePaymentAmounts now).payments) ∧
    (x.updatePaymentAmounts now).paymentStatus =
      (if sumAmounts (x.updatePaymentAmounts now).payments = 0 then
        PaymentStatus.pending
       else if (x.updatePaymentAmounts now).totalCost ≤
           sumAmounts (x.updatePaymentAmounts now).payments then
        PaymentStatus.paid
       else PaymentStatus.credit) := by
  rw [upa_payments, upa_totalCost]
  exact upa_spec x now

theorem rp_payments (s : Session) (m : PaymentMethod) (a : ℚ) (t n : String)
    (now : ℤ) :
    (s.recordPayment m a t n now).payments = s.payments ++
      [{ method := m, methodLabel := m.label, amount := a, paidAt := now,
         transactionId := t, notes := n }] := by
  simp only [Session.recordPayment]
  split <;> rw [upa_payments]

theorem rp_totalCost (s : Session) (m : PaymentMethod) (a : ℚ) (t n : String)
    (now : ℤ) :
    (s.recordPayment m a t n now).totalCost = s.totalCost := by
  simp only [Session.recordPayment]
  split <;> rw [upa_totalCost]

theorem rp_status (s : Session) (m : PaymentMethod) (a : ℚ) (t n : String)
    (now : ℤ) :
    (s.recordPayment m a t n now).status = s.status := by
  simp only [Session.recordPayment]
  split <;> rw [upa_status]

theorem rp_owner (s : Session) (m : PaymentMethod) (a : ℚ) (t n : String)
    (now : ℤ) :
    (s.recordPayment m a t n now).owner = s.owner := by
  simp only [Session.recordPayment]
  split <;> rw [upa_owner]

/-- Derived payment fields after any successful `recordPayment`. -/
theorem rp_derived (s : Session) (m : PaymentMethod) (a : ℚ) (t n : String)
    (now : ℤ) :
    (s.recordPayment m a t n now).totalPaidAmount =
      sumAmounts (s.recordPayment m a t n now).payments ∧
    (s.recordPayment m a t n now).remainingAmount =
      max 0 ((s.recordPayment m a t n now).totalCost -
        sumAmounts (s.recordPayment m a t n now).payments) ∧
    (s.recordPayment m a t n now).paymentStatus =
      (if sumAmounts (s.recordPayment m a t n now).payments = 0 then
        PaymentStatus.pending
       else if (s.recordPayment m a t n now).totalCost ≤
           sumAmounts (s.recordPayment m a t n now).payments then
        PaymentStatus.paid
       else PaymentStatus.credit) := by
  simp only [Session.recordPayment]
  split
  · exact upa_derived _ now
  · exact upa_derived _ now

/-- A sequence of `recordPayment` calls (the method/amount pairs of a
sequence of `RecordPayment` requests). -/
def applyPayments (s : Session) (ps : List (PaymentMethod × ℚ)) (now : ℤ) :
    Session :=
  ps.foldl (fun acc q => acc.recordPayment q.1 q.2 "" "" now) s

theorem applyPayments_amounts (s : Session) (ps : List (PaymentMethod × ℚ))
    (now : ℤ) :
    (applyPayments s ps now).payments.map Payment.amount =
      s.payments.map Payment.amount ++ ps.map Prod.snd := by
  induction ps generalizing s with
  | nil => simp [applyPayments]
  | cons q ps ih =>
    simp only [applyPayments, List.foldl_cons] at *
    rw [ih, rp_payments]
    simp

theorem applyPayments_append (s : Session) (l1 l2 : List (PaymentMethod × ℚ))
    (now : ℤ) :
    applyPayments s (l1 ++ l2) now = applyPayments (applyPayments s l1 now) l2 now := by
  simp [applyPayments, List.foldl_append]

/-- C3 (confirmed): for any nonempty sequence of `RecordPayment` calls on a
session with no prior payments, with each amount nonnegative (the payment
schema forbids negative amounts), the final derived fields satisfy:
`pending` iff the total paid is 0; `paid` iff total paid ≥ total cost and
total paid > 0; otherwise `credit`; and
`remainingAmount = max 0 (totalCost − totalPaid)`. -/
theorem C3_payment_status_derivation (s : Session)
    (ps : List (PaymentMethod × ℚ)) (now : ℤ)
    (hne : ps ≠ []) (hpos : ∀ q ∈ ps, 0 ≤ q.2) (hinit : s.payments = []) :
    ((applyPayments s ps now).totalPaidAmount = (ps.map Prod.snd).sum) ∧
    ((applyPayments s ps now).paymentStatus = PaymentStatus.pending ↔
      (ps.map Prod.snd).sum = 0) ∧
    ((applyPayments s ps now).paymentStatus = PaymentStatus.paid ↔
      ((applyPayments s ps now).totalCost ≤ (ps.map Prod.snd).sum ∧
        0 < (ps.map Prod.snd).sum)) ∧
    ((applyPayments s ps now).paymentStatus = PaymentStatus.credit ↔
      ((ps.map Prod.snd).sum < (applyPayments s ps now).totalCost ∧
        0 < (ps.map Prod.snd).sum)) ∧
    ((applyPayments s ps now).remainingAmount =
      max 0 ((applyPayments s ps now).totalCost - (ps.map Prod.snd).sum)) := by
  obtain ⟨L, b, rfl⟩ := ps.eq_nil_or_concat.resolve_left hne
  rw [List.concat_eq_append] at hpos ⊢
  have hsum : sumAmounts (applyPayments s (L ++ [b]) now).payments =
      ((L ++ [b]).map Prod.snd).sum := by
    rw [sumAmounts_eq_sum_map, applyPayments_amounts, hinit]
    simp
  have hnn : 0 ≤ ((L ++ [b]).map Prod.snd).sum := by
    apply List.sum_nonneg
    intro x hx
    obtain ⟨q, hq, rfl⟩ := List.mem_map.mp hx
    exact hpos q hq
  have hstep : applyPayments s (L ++ [b]) now =
      (applyPayments s L now).recordPayment b.1 b.2 "" "" now := by
    rw [applyPayments_append]
    simp [applyPayments]
  obtain ⟨h1, h2, h3⟩ := rp_derived (applyPayments s L now) b.1 b.2 "" "" now
  rw [← hstep] at h1 h2 h3
  rw [hsum] at h1 h2 h3
  refine ⟨h1, ?_, ?_, ?_, h2⟩
  · rw [h3]
    by_cases hz : ((L ++ [b]).map Prod.snd).sum = 0
    · rw [if_pos hz]
      exact iff_of_true rfl hz
    · rw [if_neg hz]
      refine iff_of_false ?_ hz
      split <;> simp
  · rw [h3]
    by_cases hz : ((L ++ [b]).map Prod.snd).sum = 0
    · rw [if_pos hz]
      exact iff_of_false (by simp) (fun h => absurd hz (ne_of_gt h.2))
    · have hpos' : 0 < ((L ++ [b]).map Prod.snd).sum :=
        lt_of_le_of_ne hnn (Ne.symm hz)
      rw [if_neg hz]
      by_cases hge : (applyPayments s (L ++ [b]) now).totalCost ≤
          ((L ++ [b]).map Prod.snd).sum
      · rw [if_pos hge]
        exact iff_of_true rfl ⟨hge, hpos'⟩
      · rw [if_neg hge]
        exact iff_of_false (by simp) (fun h => hge h.1)
  · rw [h3]
    by_cases hz : ((L ++ [b]).map Prod.snd).sum = 0
    · rw [if_pos hz]
      exact iff_of_false (by simp) (fun h => absurd hz (ne_of_gt h.2))
    · have hpos' : 0 < ((L ++ [b]).map Prod.snd).sum :=
        lt_of_le_of_ne hnn (Ne.symm hz)
      rw [if_neg hz]
      by_cases hge : (applyPayments s (L ++ [b]) now).totalCost ≤
          ((L ++ [b]).map Prod.snd).sum
      · rw [if_pos hge]
        exact iff_of_false (by simp) (fun h => absurd h.1 (not_lt.mpr hge))
      · rw [if_neg hge]
        exact iff_of_true rfl ⟨lt_of_not_le hge, hpos'⟩

/-- Witness session for C3: a session whose stored total cost is 100 and
which has no payments yet. -/
def c3WitnessSession : Session :=
  { table := 1, owner := 0, startTime := 0, pricingMethod := .per_minute,
    minuteRate := some 100, totalCost := 100 }

section
attribute [local semireducible] Rat.mul Rat.add Rat.sub Rat.inv

theorem C3_payment_status_derivation_witness :
    ((applyPayments c3WitnessSession [(.cash, 60)] 0).totalPaidAmount =
      (([(.cash, 60)] : List (PaymentMethod × ℚ)).map Prod.snd).sum) ∧
    ((applyPayments c3WitnessSession [(.cash, 60)] 0).paymentStatus =
        PaymentStatus.pending ↔
      (([(.cash, 60)] : List (PaymentMethod × ℚ)).map Prod.snd).sum = 0) ∧
    ((applyPayments c3WitnessSession [(.cash, 60)] 0).paymentStatus =
        PaymentStatus.paid ↔
      ((applyPayments c3WitnessSession [(.cash, 60)] 0).totalCost ≤
          (([(.cash, 60)] : List (PaymentMethod × ℚ)).map Prod.snd).sum ∧
        0 < (([(.cash, 60)] : List (PaymentMethod × ℚ)).map Prod.snd).sum)) ∧
    ((applyPayments c3WitnessSession [(.cash, 60)] 0).paymentStatus =
        PaymentStatus.credit ↔
      ((([(.cash, 60)] : List (PaymentMethod × ℚ)).map Prod.snd).sum <
          (applyPayments c3WitnessSession [(.cash, 60)] 0).totalCost ∧
        0 < (([(.cash, 60)] : List (PaymentMethod × ℚ)).map Prod.snd).sum)) ∧
    ((applyPayments c3WitnessSession [(.cash, 60)] 0).remainingAmount =
      max 0 ((applyPayments c3WitnessSession [(.cash, 60)] 0).totalCost -
        (([(.cash, 60)] : List (PaymentMethod × ℚ)).map Prod.snd).sum)) :=
  C3_payment_status_derivation c3WitnessSession [(.cash, 60)] 0
    (by decide) (by decide) (by decide)

end

theorem utc_status (s : Session) (now : ℤ) :
    (s.updateTotalCost now).status = s.status := by
  simp only [Session.updateTotalCost, upa_status]
  rfl

theorem utc_owner (s : Session) (now : ℤ) :
    (s.updateTotalCost now).owner = s.owner := by
  simp only [Session.updateTotalCost, upa_owner]
  rfl

theorem utc_table (s : Session) (now : ℤ) :
    (s.updateTotalCost now).table = s.table := by
  simp only [Session.updateTotalCost, upa_table]
  rfl

theorem utc_payments (s : Session) (now : ℤ) :
    (s.updateTotalCost now).payments = s.payments := by
  simp only [Session.updateTotalCost, upa_payments]
  rfl

theorem utc_totalPaidAmount (s : Session) (now : ℤ) :
    (s.updateTotalCost now).totalPaidAmount = sumAmounts s.payments := by
  simp only [Session.updateTotalCost]
  exact (upa_spec _ now).1

theorem mac_status (s : Session) (n : String) :
    (s.markAsCredit n).status = s.status := rfl

theorem mac_owner (s : Session) (n : String) :
    (s.markAsCredit n).owner = s.owner := rfl

theorem mac_payments (s : Session) (n : String) :
    (s.markAsCredit n).payments = s.payments := rfl

theorem mac_paymentStatus (s : Session) (n : String) :
    (s.markAsCredit n).paymentStatus = PaymentStatus.credit := rfl

theorem upa_paymentStatus_nil (x : Session) (now : ℤ) (h : x.payments = []) :
    (x.updatePaymentAmounts now).paymentStatus = PaymentStatus.pending := by
  simp only [Session.updatePaymentAmounts, h]
  simp

theorem utc_paymentStatus_nil (s : Session) (now : ℤ) (h : s.payments = []) :
    (s.updateTotalCost now).paymentStatus = PaymentStatus.pending := by
  simp only [Session.updateTotalCost]
  exact upa_paymentStatus_nil _ now h

theorem endTransform_status (s : Session) (notes : Option String) (now : ℤ) :
    (s.endTransform notes now).status = SessionStatus.completed := by
  simp only [Session.endTransform]
  cases hq : s.pausedAt with
  | none => simp only [hq, utc_status]
  | some p =>
    simp only [hq]
    split
    · rw [utc_status]
    · rw [utc_status]

theorem endTransform_paymentStatus_nil (s : Session) (notes : Option String)
    (now : ℤ) (h : s.payments = []) :
    (s.endTransform notes now).paymentStatus = PaymentStatus.pending := by
  simp only [Session.endTransform]
  cases hq : s.pausedAt with
  | none => exact utc_paymentStatus_nil _ now h
  | some p =>
    simp only [hq]
    split
    · exact utc_paymentStatus_nil _ now h
    · exact utc_paymentStatus_nil _ now h

/-- Successful shape of `confirmPayment` with status `credit`. -/
theorem confirmPayment_credit_ok (st : AppState) (user sid : Nat) (s : Session)
    (tid pn : String) (now : ℤ)
    (hs : lookupId st.sessions sid = some s) (hown : s.owner = user)
    (hst : s.status = .active ∨ s.status = .paused) :
    st.confirmPayment user sid .credit none tid pn now =
      .ok ⟨st.tables,
           updateId st.sessions sid
             (fun _ => (s.updateTotalCost now).markAsCredit
               (if pn = "" then "Payment credited - to be collected later"
                else pn)),
           st.products⟩ := by
  have hownne : ¬ s.owner ≠ user := fun hh => hh hown
  have hstne : ¬ ¬ (s.status = .active ∨ s.status = .paused) := fun hh => hh hst
  simp only [AppState.confirmPayment, hs]
  rw [if_neg (by simp), if_neg hownne, if_neg hstne]

/-- Successful shape of `confirmPayment` with status `paid`. -/
theorem confirmPayment_paid_ok (st : AppState) (user sid : Nat) (s : Session)
    (m : PaymentMethod) (tid pn : String) (now : ℤ)
    (hs : lookupId st.sessions sid = some s) (hown : s.owner = user)
    (hst : s.status = .active ∨ s.status = .paused) :
    st.confirmPayment user sid .paid (some m) tid pn now =
      .ok ⟨st.tables,
           updateId st.sessions sid
             (fun _ => (s.updateTotalCost now).markAsPaid m tid pn now),
           st.products⟩ := by
  have hownne : ¬ s.owner ≠ user := fun hh => hh hown
  have hstne : ¬ ¬ (s.status = .active ∨ s.status = .paused) := fun hh => hh hst
  simp only [AppState.confirmPayment, hs]
  rw [if_neg (by simp), if_neg hownne, if_neg hstne]

/-- The pending-payment failure of `endSession`. -/
theorem endSession_pending (st : AppState) (user sid : Nat) (s : Session)
    (notes : Option String) (now : ℤ)
    (hs : lookupId st.sessions sid = some s) (hown : s.owner = user)
    (hst : s.status = .active ∨ s.status = .paused)
    (hpend : s.paymentStatus = .pending) :
    st.endSession user sid notes now = .error
      { statusCode := 400,
        message := "Payment confirmation required before ending session",
        requiresPaymentConfirmation := true,
        sessionCost := some (s.calculateCurrentCost now) } := by
  have hownne : ¬ s.owner ≠ user := fun hh => hh hown
  have hstne : ¬ ¬ (s.status = .active ∨ s.status = .paused) := fun hh => hh hst
  simp only [AppState.endSession, hs]
  rw [if_neg hownne, if_neg hstne, if_pos hpend]

/-- Successful shape of `endSession` when the payment is not pending. -/
theorem endSession_ok (st : AppState) (user sid : Nat) (s : Session)
    (notes : Option String) (now : ℤ)
    (hs : lookupId st.sessions sid = some s) (hown : s.owner = user)
    (hst : s.status = .active ∨ s.status = .paused)
    (hnp : s.paymentStatus ≠ .pending) :
    st.endSession user sid notes now = .ok
      ⟨updateId st.tables s.table
         (fun t => { t with isOccupied := false, currentBooking := none }),
       updateId st.sessions sid (fun x => x.endTransform notes now),
       st.products⟩ := by
  have hownne : ¬ s.owner ≠ user := fun hh => hh hown
  have hstne : ¬ ¬ (s.status = .active ∨ s.status = .paused) := fun hh => hh hst
  simp only [AppState.endSession, hs]
  rw [if_neg hownne, if_neg hstne, if_neg hnp]

theorem map_status (x : Session) (m : PaymentMethod) (tid pn : String)
    (now : ℤ) : (x.markAsPaid m tid pn now).status = x.status := by
  simp only [Session.markAsPaid, rp_status]

theorem map_owner (x : Session) (m : PaymentMethod) (tid pn : String)
    (now : ℤ) : (x.markAsPaid m tid pn now).owner = x.owner := by
  simp only [Session.markAsPaid, rp_owner]

/-- After `updateTotalCost` then `markAsPaid`, the payment sum equals the
recomputed total cost, so the derived status is `paid` whenever that total
is nonzero. -/
theorem markAsPaid_after_utc_paymentStatus (s : Session) (m : PaymentMethod)
    (tid pn : String) (now : ℤ)
    (h : (s.updateTotalCost now).totalCost ≠ 0) :
    ((s.updateTotalCost now).markAsPaid m tid pn now).paymentStatus =
      PaymentStatus.paid := by
  have h3 := (rp_derived (s.updateTotalCost now) m
      ((s.updateTotalCost now).totalCost -
        (s.updateTotalCost now).totalPaidAmount) tid pn now).2.2
  have hone : ∀ p : Payment, sumAmounts [p] = p.amount := by
    intro p
    simp [sumAmounts]
  have hsum : sumAmounts ((s.updateTotalCost now).recordPayment m
      ((s.updateTotalCost now).totalCost -
        (s.updateTotalCost now).totalPaidAmount) tid pn now).payments =
      (s.updateTotalCost now).totalCost := by
    rw [rp_payments, sumAmounts_append, hone]
    rw [utc_totalPaidAmount]
    have hup : sumAmounts (s.updateTotalCost now).payments =
        sumAmounts s.payments := by rw [utc_payments]
    rw [hup]
    ring
  rw [hsum, rp_totalCost] at h3
  simp only [Session.markAsPaid]
  rw [h3, if_neg h, if_pos le_rfl]

/-- C4 (corrected): `EndSession` on a pending session always fails with a
400 response carrying `requiresPaymentConfirmation: true` and the current
computed cost (and, returning before any write, leaves the session and
table unchanged).  After `ConfirmPayment(credit)` the same `EndSession`
succeeds and completes the session; after `ConfirmPayment(paid, method)`
the same holds **provided the recomputed total cost is nonzero** — on a
zero-cost session `markAsPaid` records a payment of 0, the derived status
reverts to `pending`, and `EndSession` still fails (see
`C4_counterexample`). -/
theorem C4_end_requires_payment (st : AppState) (user sid : Nat) (s : Session)
    (m : PaymentMethod) (tid pn : String) (notes : Option String)
    (now now2 : ℤ)
    (hs : lookupId st.sessions sid = some s) (hown : s.owner = user)
    (hst : s.status = .active ∨ s.status = .paused) :
    (s.paymentStatus = .pending →
      st.endSession user sid notes now = .error
        { statusCode := 400,
          message := "Payment confirmation required before ending session",
          requiresPaymentConfirmation := true,
          sessionCost := some (s.calculateCurrentCost now) }) ∧
    (∀ st1, st.confirmPayment user sid .credit none tid pn now = .ok st1 →
      ∃ st2, st1.endSession user sid notes now2 = .ok st2 ∧
        ∃ s2, lookupId st2.sessions sid = some s2 ∧
          s2.status = .completed) ∧
    ((s.updateTotalCost now).totalCost ≠ 0 →
      ∀ st1, st.confirmPayment user sid .paid (some m) tid pn now = .ok st1 →
      ∃ st2, st1.endSession user sid notes now2 = .ok st2 ∧
        ∃ s2, lookupId st2.sessions sid = some s2 ∧
          s2.status = .completed) := by
  refine ⟨fun hpend => endSession_pending st user sid s notes now hs hown hst hpend,
    ?_, ?_⟩
  · intro st1 h1
    rw [confirmPayment_credit_ok st user sid s tid pn now hs hown hst] at h1
    have hst1 := (Except.ok.inj h1).symm
    subst hst1
    set sC := (s.updateTotalCost now).markAsCredit
      (if pn = "" then "Payment credited - to be collected later" else pn) with hsC
    have hlC : lookupId (updateId st.sessions sid (fun _ => sC)) sid = some sC := by
      rw [lookupId_updateId_self, hs]
      rfl
    have hownC : sC.owner = user := by
      rw [hsC, mac_owner, utc_owner, hown]
    have hstC : sC.status = .active ∨ sC.status = .paused := by
      rw [hsC, mac_status, utc_status]
      exact hst
    have hnpC : sC.paymentStatus ≠ .pending := by
      rw [hsC, mac_paymentStatus]
      simp
    refine ⟨_, endSession_ok _ user sid sC notes now2 hlC hownC hstC hnpC, ?_⟩
    refine ⟨sC.endTransform notes now2, ?_, endTransform_status sC notes now2⟩
    show lookupId (updateId (updateId st.sessions sid (fun _ => sC)) sid
      (fun x => x.endTransform notes now2)) sid = _
    rw [lookupId_updateId_self, hlC]
    rfl
  · intro hnz st1 h1
    rw [confirmPayment_paid_ok st user sid s m tid pn now hs hown hst] at h1
    have hst1 := (Except.ok.inj h1).symm
    subst hst1
    set sP := (s.updateTotalCost now).markAsPaid m tid pn now with hsP
    have hlP : lookupId (updateId st.sessions sid (fun _ => sP)) sid = some sP := by
      rw [lookupId_updateId_self, hs]
      rfl
    have hownP : sP.owner = user := by
      rw [hsP, map_owner, utc_owner, hown]
    have hstP : sP.status = .active ∨ sP.status = .paused := by
      rw [hsP, map_status, utc_status]
      exact hst
    have hnpP : sP.paymentStatus ≠ .pending := by
      rw [hsP, markAsPaid_after_utc_paymentStatus s m tid pn now hnz]
      simp
    refine ⟨_, endSession_ok _ user sid sP notes now2 hlP hownP hstP hnpP, ?_⟩
    refine ⟨sP.endTransform notes now2, ?_, endTransform_status sP notes now2⟩
    show lookupId (updateId (updateId st.sessions sid (fun _ => sP)) sid
      (fun x => x.endTransform notes now2)) sid = _
    rw [lookupId_updateId_self, hlP]
    rfl

/-- Scenario for the C4 counterexample: start a session and immediately
confirm payment as `paid` while the computed cost is still 0 (0 elapsed
minutes, no items). -/
def c4Run1 : Except ErrorResponse AppState :=
  match baseState.startSession 0 1 none 1 0 with
  | .error e => .error e
  | .ok r => r.1.confirmPayment 0 r.2 .paid (some .cash) "" "" 0

def c4Run2 : Except ErrorResponse AppState :=
  match c4Run1 with
  | .error e => .error e
  | .ok st => st.endSession 0 1 none 0

section
attribute [local semireducible] Rat.mul Rat.add Rat.sub Rat.inv

/-- C4 counterexample: `ConfirmPayment(paid, cash)` on a freshly started
zero-cost session returns success, yet the very next `EndSession` fails
with `requiresPaymentConfirmation` — refuting the claim that `EndSession`
always succeeds after a successful `ConfirmPayment` with status `paid`. -/
theorem C4_counterexample :
    c4Run1.toOption.isSome = true ∧
    (match c4Run2 with
      | .error e => e.requiresPaymentConfirmation
      | .ok _ => false) = true := by
  constructor
  · decide
  · decide

end

/-- Fixture for the C4/C9 witnesses: one active per-minute session (rate
snapshot 100 per minute) on an occupied table, one minute old at time
60000. -/
def c4Session : Session :=
  { table := 1, owner := 0, status := .active, startTime := 0,
    pricingMethod := .per_minute, minuteRate := some 100 }

def c4State : AppState :=
  { tables := [(1, { baseTable with isOccupied := true, currentBooking := some 1 })],
    sessions := [(1, c4Session)], products := [] }

theorem C4_end_requires_payment_witness :
    (c4Session.paymentStatus = .pending →
      c4State.endSession 0 1 none 60000 = .error
        { statusCode := 400,
          message := "Payment confirmation required before ending session",
          requiresPaymentConfirmation := true,
          sessionCost := some (c4Session.calculateCurrentCost 60000) }) ∧
    (∀ st1, c4State.confirmPayment 0 1 .credit none "" "" 60000 = .ok st1 →
      ∃ st2, st1.endSession 0 1 none 60000 = .ok st2 ∧
        ∃ s2, lookupId st2.sessions 1 = some s2 ∧
          s2.status = .completed) ∧
    ((c4Session.updateTotalCost 60000).totalCost ≠ 0 →
      ∀ st1, c4State.confirmPayment 0 1 .paid (some .cash) "" "" 60000 = .ok st1 →
      ∃ st2, st1.endSession 0 1 none 60000 = .ok st2 ∧
        ∃ s2, lookupId st2.sessions 1 = some s2 ∧
          s2.status = .completed) :=
  C4_end_requires_payment c4State 0 1 c4Session .cash "" "" none 60000 60000
    rfl rfl (Or.inl rfl)

/-- C9 (confirmed): a session forced to `credit` by `markAsCredit` while
its payments list is empty passes the pending-payment gate of
`EndSession`, but the final recompute inside `EndSession` re-derives the
status from a zero paid amount, so the completed session ends up with
`paymentStatus = pending`. -/
theorem C9_forced_credit_reverts_to_pending (st : AppState) (user sid : Nat)
    (s : Session) (cn : String) (notes : Option String) (now2 : ℤ)
    (hs : lookupId st.sessions sid = some s) (hown : s.owner = user)
    (hst : s.status = .active ∨ s.status = .paused)
    (hpay : s.payments = []) :
    ∃ st2, (AppState.mk st.tables
        (updateId st.sessions sid (fun _ => s.markAsCredit cn))
        st.products).endSession user sid notes now2 = .ok st2 ∧
      ∃ s2, lookupId st2.sessions sid = some s2 ∧
        s2.status = .completed ∧ s2.paymentStatus = .pending := by
  set sC := s.markAsCredit cn with hsC
  have hlC : lookupId (updateId st.sessions sid (fun _ => sC)) sid = some sC := by
    rw [lookupId_updateId_self, hs]
    rfl
  have hownC : sC.owner = user := by
    rw [hsC, mac_owner, hown]
  have hstC : sC.status = .active ∨ sC.status = .paused := by
    rw [hsC, mac_status]
    exact hst
  have hnpC : sC.paymentStatus ≠ .pending := by
    rw [hsC, mac_paymentStatus]
    simp
  refine ⟨_, endSession_ok _ user sid sC notes now2 hlC hownC hstC hnpC, ?_⟩
  refine ⟨sC.endTransform notes now2, ?_, endTransform_status sC notes now2,
    endTransform_paymentStatus_nil sC notes now2 (by rw [hsC, mac_payments]; exact hpay)⟩
  show lookupId (updateId (updateId st.sessions sid (fun _ => sC)) sid
    (fun x => x.endTransform notes now2)) sid = _
  rw [lookupId_updateId_self, hlC]
  rfl

theorem C9_forced_credit_reverts_to_pending_witness :
    ∃ st2, (AppState.mk c4State.tables
        (updateId c4State.sessions 1 (fun _ => c4Session.markAsCredit "later"))
        c4State.products).endSession 0 1 none 60000 = .ok st2 ∧
      ∃ s2, lookupId st2.sessions 1 = some s2 ∧
        s2.status = .completed ∧ s2.paymentStatus = .pending :=
  C9_forced_credit_reverts_to_pending c4State 0 1 c4Session "later" none 60000
    rfl rfl (Or.inl rfl) rfl

/-- Successful shape of `cancelSession`. -/
theorem cancelSession_ok (st : AppState) (user sid : Nat) (s : Session)
    (now : ℤ)
    (hs : lookupId st.sessions sid = some s) (hown : s.owner = user)
    (hnc : s.status ≠ .completed) :
    st.cancelSession user sid now = .ok
      ⟨updateId st.tables s.table
         (fun t => { t with isOccupied := false, currentBooking := none }),
       updateId st.sessions sid (fun _ => s.cancelTransform now),
       restoreStock st.products s.items⟩ := by
  have hownne : ¬ s.owner ≠ user := fun hh => hh hown
  simp only [AppState.cancelSession, hs]
  rw [if_neg hownne, if_neg hnc]

/-- The completed-session rejection of `cancelSession`. -/
theorem cancelSession_completed (st : AppState) (user sid : Nat) (s : Session)
    (now : ℤ)
    (hs : lookupId st.sessions sid = some s) (hown : s.owner = user)
    (hc : s.status = .completed) :
    st.cancelSession user sid now = .error
      { statusCode := 400, message := "Cannot cancel completed sessions" } := by
  have hownne : ¬ s.owner ≠ user := fun hh => hh hown
  simp only [AppState.cancelSession, hs]
  rw [if_neg hownne, if_pos hc]

theorem updateStock_add_currentStock (p : Product) (q : ℚ) :
    (p.updateStock q "add").currentStock = p.currentStock + q := by
  simp [Product.updateStock]

/-- C5 (confirmed): cancelling a non-completed session whose item list is
`[(productA, qty)]` succeeds, adds `qty` back to productA's stock, marks
the session cancelled with `endTime` set, and resets all payment
bookkeeping (`paymentStatus` to `pending`, `totalPaidAmount` and
`remainingAmount` to 0, `payments` to `[]`) — whatever payments were
recorded before, including a prior payment of 100. -/
theorem C5_cancel_restores_stock_resets_payment (st : AppState)
    (user sid : Nat) (s : Session) (itm : SessionItem) (pid : Nat)
    (p : Product) (now : ℤ)
    (hs : lookupId st.sessions sid = some s) (hown : s.owner = user)
    (hnc : s.status ≠ .completed)
    (hitems : s.items = [itm]) (hpid : itm.product = pid)
    (hp : lookupId st.products pid = some p) :
    ∃ st1, st.cancelSession user sid now = .ok st1 ∧
      (∃ p1, lookupId st1.products pid = some p1 ∧
        p1.currentStock = p.currentStock + itm.quantity) ∧
      ∃ s1, lookupId st1.sessions sid = some s1 ∧
        s1.status = .cancelled ∧ s1.endTime = some now ∧
        s1.paymentStatus = .pending ∧ s1.totalPaidAmount = 0 ∧
        s1.remainingAmount = 0 ∧ s1.payments = [] := by
  refine ⟨_, cancelSession_ok st user sid s now hs hown hnc, ?_, ?_⟩
  · refine ⟨p.updateStock itm.quantity "add", ?_, updateStock_add_currentStock p itm.quantity⟩
    show lookupId (restoreStock st.products s.items) pid = _
    rw [hitems]
    show lookupId (updateId st.products itm.product
      (fun x => x.updateStock itm.quantity "add")) pid = _
    rw [hpid, lookupId_updateId_self, hp]
    rfl
  · refine ⟨s.cancelTransform now, ?_, rfl, rfl, rfl, rfl, rfl, rfl⟩
    show lookupId (updateId st.sessions sid (fun _ => s.cancelTransform now)) sid = _
    rw [lookupId_updateId_self, hs]
    rfl

/-- Fixture for the C5/C10 witnesses: a session holding 3 units of product
5 and a prior recorded payment of 100. -/
def c5Item : SessionItem :=
  { id := 1, product := 5, productName := "Cola", quantity := 3,
    costPrice := 50, sellingPrice := 80, totalCost := 150,
    totalRevenue := 240, profit := 90, addedAt := 0 }

def c5Payment : Payment :=
  { method := .cash, methodLabel := "Cash", amount := 100, paidAt := 0,
    transactionId := "", notes := "" }

def c5Session : Session :=
  { table := 1, owner := 0, status := .active, startTime := 0,
    pricingMethod := .per_minute, minuteRate := some 100,
    items := [c5Item], payments := [c5Payment], totalPaidAmount := 100,
    paymentStatus := .credit }

def c5State : AppState :=
  { tables := [(1, { baseTable with isOccupied := true, currentBooking := some 1 })],
    sessions := [(1, c5Session)], products := [(5, baseProduct)] }

theorem C5_cancel_restores_stock_resets_payment_witness :
    ∃ st1, c5State.cancelSession 0 1 0 = .ok st1 ∧
      (∃ p1, lookupId st1.products 5 = some p1 ∧
        p1.currentStock = baseProduct.currentStock + c5Item.quantity) ∧
      ∃ s1, lookupId st1.sessions 1 = some s1 ∧
        s1.status = .cancelled ∧ s1.endTime = some 0 ∧
        s1.paymentStatus = .pending ∧ s1.totalPaidAmount = 0 ∧
        s1.remainingAmount = 0 ∧ s1.payments = [] :=
  C5_cancel_restores_stock_resets_payment c5State 0 1 c5Session c5Item 5
    baseProduct 0 rfl rfl (by decide) rfl rfl rfl

/-- C10 (confirmed): apart from not-found and ownership failures,
`cancelSession` rejects only sessions whose status is `completed`; a
session that is already `cancelled` can be cancelled again, and each
cancellation re-runs the stock restoration, so two successive
cancellations add the item quantity to the product's stock twice. -/
theorem C10_repeated_cancel_inflates_stock (st : AppState) (user sid : Nat)
    (s : Session) (itm : SessionItem) (pid : Nat) (p : Product)
    (now now2 : ℤ)
    (hs : lookupId st.sessions sid = some s) (hown : s.owner = user)
    (hitems : s.items = [itm]) (hpid : itm.product = pid)
    (hp : lookupId st.products pid = some p) :
    (s.status = .completed → st.cancelSession user sid now = .error
      { statusCode := 400, message := "Cannot cancel completed sessions" }) ∧
    (s.status ≠ .completed →
      ∃ st1, st.cancelSession user sid now = .ok st1 ∧
        (∃ p1, lookupId st1.products pid = some p1 ∧
          p1.currentStock = p.currentStock + itm.quantity) ∧
        ∃ st2, st1.cancelSession user sid now2 = .ok st2 ∧
          ∃ p2, lookupId st2.products pid = some p2 ∧
            p2.currentStock = p.currentStock + itm.quantity + itm.quantity) := by
  refine ⟨fun hc => cancelSession_completed st user sid s now hs hown hc, fun hnc => ?_⟩
  refine ⟨_, cancelSession_ok st user sid s now hs hown hnc, ?_, ?_⟩
  · refine ⟨p.updateStock itm.quantity "add", ?_, updateStock_add_currentStock p itm.quantity⟩
    show lookupId (restoreStock st.products s.items) pid = _
    rw [hitems]
    show lookupId (updateId st.products itm.product
      (fun x => x.updateStock itm.quantity "add")) pid = _
    rw [hpid, lookupId_updateId_self, hp]
    rfl
  · set st1 : AppState :=
      ⟨updateId st.tables s.table
         (fun t => { t with isOccupied := false, currentBooking := none }),
       updateId st.sessions sid (fun _ => s.cancelTransform now),
       restoreStock st.products s.items⟩ with hst1
    have hs1 : lookupId st1.sessions sid = some (s.cancelTransform now) := by
      rw [hst1]
      show lookupId (updateId st.sessions sid (fun _ => s.cancelTransform now)) sid = _
      rw [lookupId_updateId_self, hs]
      rfl
    have hown1 : (s.cancelTransform now).owner = user := hown
    have hnc1 : (s.cancelTransform now).status ≠ .completed := by
      show SessionStatus.cancelled ≠ .completed
      simp
    refine ⟨_, cancelSession_ok st1 user sid (s.cancelTransform now) now2 hs1 hown1 hnc1, ?_⟩
    refine ⟨(p.updateStock itm.quantity "add").updateStock itm.quantity "add", ?_, ?_⟩
    · show lookupId (restoreStock st1.products (s.cancelTransform now).items) pid = _
      have hitems1 : (s.cancelTransform now).items = [itm] := hitems
      rw [hitems1]
      show lookupId (updateId st1.products itm.product
        (fun x => x.updateStock itm.quantity "add")) pid = _
      have hp1 : lookupId st1.products pid = some (p.updateStock itm.quantity "add") := by
        rw [hst1]
        show lookupId (restoreStock st.products s.items) pid = _
        rw [hitems]
        show lookupId (updateId st.products itm.product
          (fun x => x.updateStock itm.quantity "add")) pid = _
        rw [hpid, lookupId_updateId_self, hp]
        rfl
      rw [hpid, lookupId_updateId_self, hp1]
      rfl
    · rw [updateStock_add_currentStock, updateStock_add_currentStock]

theorem C10_repeated_cancel_inflates_stock_witness :
    (c5Session.status = .completed → c5State.cancelSession 0 1 0 = .error
      { statusCode := 400, message := "Cannot cancel completed sessions" }) ∧
    (c5Session.status ≠ .completed →
      ∃ st1, c5State.cancelSession 0 1 0 = .ok st1 ∧
        (∃ p1, lookupId st1.products 5 = some p1 ∧
          p1.currentStock = baseProduct.currentStock + c5Item.quantity) ∧
        ∃ st2, st1.cancelSession 0 1 0 = .ok st2 ∧
          ∃ p2, lookupId st2.products 5 = some p2 ∧
            p2.currentStock = baseProduct.currentStock + c5Item.quantity +
              c5Item.quantity) :=
  C10_repeated_cancel_inflates_stock c5State 0 1 c5Session c5Item 5
    baseProduct 0 0 rfl rfl rfl rfl rfl

/-! ## C6: the stock-nonnegativity invariant -/

/-- The operations the claim ranges over: the add-item and remove-item
session endpoints and the inventory stock-adjustment endpoint. -/
inductive StockOp
  | addItem (user sessionId productId : Nat) (quantity : ℚ) (newItemId : Nat)
      (now : ℤ)
  | removeItem (user sessionId itemId : Nat) (now : ℤ)
  | adjustStock (user productId : Nat) (quantity : ℚ) (operation : String)

/-- One endpoint call; a rejected request leaves the store unchanged. -/
def stockStep (st : AppState) (op : StockOp) : AppState :=
  match op with
  | .addItem u sid pid q nid now =>
    match st.addItemToSession u sid pid q nid now with
    | .ok st1 => st1
    | .error _ => st
  | .removeItem u sid iid now =>
    match st.removeItemFromSession u sid iid now with
    | .ok st1 => st1
    | .error _ => st
  | .adjustStock u pid q oper =>
    match st.updateStockEndpoint u pid q oper with
    | .ok st1 => st1
    | .error _ => st

/-- Store invariant: all stocks are nonnegative (schema: `currentStock`
min 0) and all stored item quantities are nonnegative (schema: `quantity`
min 1). -/
def StockInv (st : AppState) : Prop :=
  (∀ e ∈ st.products, 0 ≤ e.2.currentStock) ∧
  (∀ e ∈ st.sessions, ∀ i ∈ e.2.items, 0 ≤ i.quantity)

theorem mem_updateId {α : Type} {l : List (Nat × α)} {id : Nat} {f : α → α}
    {e : Nat × α} (he : e ∈ updateId l id f) :
    e ∈ l ∨ ∃ v, (id, v) ∈ l ∧ e = (id, f v) := by
  simp only [updateId, List.mem_map] at he
  obtain ⟨a, ha, hae⟩ := he
  by_cases h : a.1 = id
  · right
    refine ⟨a.2, ?_, ?_⟩
    · rw [← h]
      exact ha
    · rw [← hae, if_pos h, h]
  · left
    rw [← hae, if_neg h]
    exact ha

theorem lookupId_mem {α : Type} {l : List (Nat × α)} {id : Nat} {v : α}
    (h : lookupId l id = some v) : (id, v) ∈ l := by
  unfold lookupId at h
  obtain ⟨e, he, hv⟩ := Option.map_eq_some'.mp h
  have hmem := List.mem_of_find?_eq_some he
  have hid := List.find?_some he
  simp only [decide_eq_true_eq] at hid
  have heq : (id, v) = e := Prod.ext_iff.mpr ⟨hid.symm, hv.symm⟩
  rw [heq]
  exact hmem

theorem updateStock_nonneg (p : Product) (q : ℚ) (oper : String)
    (hp : 0 ≤ p.currentStock) (hq : 0 ≤ q) :
    0 ≤ (p.updateStock q oper).currentStock := by
  simp only [Product.updateStock]
  split
  · exact add_nonneg hp hq
  split
  · exact le_max_left 0 _
  split
  · exact le_max_left 0 _
  · exact hp

theorem addItem_items (s : Session) (id pid : Nat) (nm : String)
    (q cp sp : ℚ) (now : ℤ) :
    (s.addItem id pid nm q cp sp now).items = s.items ++
      [{ id := id, product := pid, productName := nm, quantity := q,
         costPrice := cp, sellingPrice := sp, totalCost := cp * q,
         totalRevenue := sp * q, profit := sp * q - cp * q,
         addedAt := now }] := by
  simp only [Session.addItem, upa_items]
  rfl

theorem removeItem_items (s : Session) (iid : Nat) (now : ℤ) :
    (s.removeItem iid now).items = s.items.filter (fun i => i.id ≠ iid) := by
  simp only [Session.removeItem, upa_items]
  rfl

theorem addItemToSession_ok_inv (st : AppState) (u sid pid : Nat) (q : ℚ)
    (nid : Nat) (now : ℤ) (st1 : AppState)
    (h : st.addItemToSession u sid pid q nid now = .ok st1) :
    ∃ s p, ¬ q < 1 ∧ lookupId st.sessions sid = some s ∧
      lookupId st.products pid = some p ∧
      st1.sessions = updateId st.sessions sid
        (fun _ => s.addItem nid pid p.name ((⌊q⌋ : ℤ) : ℚ)
          p.costPrice p.sellingPrice now) ∧
      st1.products = updateId st.products pid
        (fun x => x.updateStock q "subtract") := by
  simp only [AppState.addItemToSession] at h
  split at h
  · exact absurd h (by simp)
  next hq =>
    split at h
    · exact absurd h (by simp)
    next s hsl =>
      split at h
      · exact absurd h (by simp)
      split at h
      · exact absurd h (by simp)
      split at h
      · exact absurd h (by simp)
      next p hpl =>
        split at h
        · exact absurd h (by simp)
        split at h
        · exact absurd h (by simp)
        have h1 := Except.ok.inj h
        exact ⟨s, p, hq, hsl, hpl, by rw [← h1], by rw [← h1]⟩

theorem removeItemFromSession_ok_inv (st : AppState) (u sid iid : Nat)
    (now : ℤ) (st1 : AppState)
    (h : st.removeItemFromSession u sid iid now = .ok st1) :
    ∃ s item, lookupId st.sessions sid = some s ∧ item ∈ s.items ∧
      st1.sessions = updateId st.sessions sid (fun _ => s.removeItem iid now) ∧
      st1.products = updateId st.products item.product
        (fun p => p.updateStock item.quantity "add") := by
  simp only [AppState.removeItemFromSession] at h
  split at h
  · exact absurd h (by simp)
  next s hsl =>
    split at h
    · exact absurd h (by simp)
    split at h
    · exact absurd h (by simp)
    split at h
    · exact absurd h (by simp)
    next item hfind =>
      have h1 := Except.ok.inj h
      exact ⟨s, item, hsl, List.mem_of_find?_eq_some hfind, by rw [← h1],
        by rw [← h1]⟩

theorem updateStockEndpoint_ok_inv (st : AppState) (u pid : Nat) (q : ℚ)
    (oper : String) (st1 : AppState)
    (h : st.updateStockEndpoint u pid q oper = .ok st1) :
    ¬ q ≤ 0 ∧
      st1.sessions = st.sessions ∧
      st1.products = updateId st.products pid
        (fun x => x.updateStock q oper) := by
  simp only [AppState.updateStockEndpoint] at h
  split at h
  · exact absurd h (by simp)
  split at h
  · exact absurd h (by simp)
  split at h
  · exact absurd h (by simp)
  next hq =>
    have h1 := Except.ok.inj h
    exact ⟨hq, by rw [← h1], by rw [← h1]⟩

theorem stockStep_inv (st : AppState) (op : StockOp) (inv : StockInv st) :
    StockInv (stockStep st op) := by
  cases op with
  | addItem u sid pid q nid now =>
    cases hres : st.addItemToSession u sid pid q nid now with
    | error e =>
      simpa only [stockStep, hres] using inv
    | ok st1 =>
      have hstep : stockStep st (.addItem u sid pid q nid now) = st1 := by
        simp only [stockStep, hres]
      rw [hstep]
      obtain ⟨s, p, hq, hsl, hpl, hsess, hprod⟩ :=
        addItemToSession_ok_inv st u sid pid q nid now st1 hres
      have hq0 : (0 : ℚ) ≤ q := le_trans zero_le_one (not_lt.mp hq)
      constructor
      · intro e he
        rw [hprod] at he
        rcases mem_updateId he with hmem | ⟨v, hv, rfl⟩
        · exact inv.1 e hmem
        · exact updateStock_nonneg v q "subtract" (inv.1 (pid, v) hv) hq0
      · intro e he i hi
        rw [hsess] at he
        rcases mem_updateId he with hmem | ⟨v, hv, rfl⟩
        · exact inv.2 e hmem i hi
        · simp only [addItem_items] at hi
          rcases List.mem_append.mp hi with hiold | hinew
          · exact inv.2 (sid, s) (lookupId_mem hsl) i hiold
          · have : i.quantity = ((⌊q⌋ : ℤ) : ℚ) := by
              rw [List.mem_singleton.mp hinew]
            rw [this]
            have : (0 : ℤ) ≤ ⌊q⌋ := Int.floor_nonneg.mpr hq0
            exact_mod_cast this
  | removeItem u sid iid now =>
    cases hres : st.removeItemFromSession u sid iid now with
    | error e =>
      simpa only [stockStep, hres] using inv
    | ok st1 =>
      have hstep : stockStep st (.removeItem u sid iid now) = st1 := by
        simp only [stockStep, hres]
      rw [hstep]
      obtain ⟨s, item, hsl, hitem, hsess, hprod⟩ :=
        removeItemFromSession_ok_inv st u sid iid now st1 hres
      constructor
      · intro e he
        rw [hprod] at he
        rcases mem_updateId he with hmem | ⟨v, hv, rfl⟩
        · exact inv.1 e hmem
        · exact updateStock_nonneg v item.quantity "add"
            (inv.1 (item.product, v) hv)
            (inv.2 (sid, s) (lookupId_mem hsl) item hitem)
      · intro e he i hi
        rw [hsess] at he
        rcases mem_updateId he with hmem | ⟨v, hv, rfl⟩
        · exact inv.2 e hmem i hi
        · simp only [removeItem_items] at hi
          exact inv.2 (sid, s) (lookupId_mem hsl) i (List.mem_of_mem_filter hi)
  | adjustStock u pid q oper =>
    cases hres : st.updateStockEndpoint u pid q oper with
    | error e =>
      simpa only [stockStep, hres] using inv
    | ok st1 =>
      have hstep : stockStep st (.adjustStock u pid q oper) = st1 := by
        simp only [stockStep, hres]
      rw [hstep]
      obtain ⟨hq, hsess, hprod⟩ :=
        updateStockEndpoint_ok_inv st u pid q oper st1 hres
      constructor
      · intro e he
        rw [hprod] at he
        rcases mem_updateId he with hmem | ⟨v, hv, rfl⟩
        · exact inv.1 e hmem
        · exact updateStock_nonneg v q oper (inv.1 (pid, v) hv)
            (le_of_lt (lt_of_not_le hq))
      · intro e he i hi
        rw [hsess] at he
        exact inv.2 e he i hi

theorem foldl_stockStep_inv (st : AppState) (ops : List StockOp)
    (inv : StockInv st) : StockInv (ops.foldl stockStep st) := by
  induction ops generalizing st with
  | nil => exact inv
  | cons op ops ih =>
    rw [List.foldl_cons]
    exact ih (stockStep st op) (stockStep_inv st op inv)

/-- C6 (confirmed): starting from any store whose stocks are nonnegative
and whose stored item quantities are nonnegative (both enforced by the
schemas), every sequence of add-item, remove-item and stock-adjustment
endpoint calls keeps every product's `currentStock` nonnegative:
`subtract` and `set` clamp at zero with no error, `add` increments. -/
theorem C6_stock_never_negative (st : AppState) (ops : List StockOp)
    (hstock : ∀ e ∈ st.products, 0 ≤ e.2.currentStock)
    (hitems : ∀ e ∈ st.sessions, ∀ i ∈ e.2.items, 0 ≤ i.quantity) :
    ∀ e ∈ (ops.foldl stockStep st).products, 0 ≤ e.2.currentStock :=
  (foldl_stockStep_inv st ops ⟨hstock, hitems⟩).1

section
attribute [local semireducible] Rat.mul Rat.add Rat.sub Rat.inv

theorem C6_stock_never_negative_witness :
    (0 : ℚ) ≤ (Product.mk 0 "Cola" 50 80 3).currentStock :=
  C6_stock_never_negative c5State
    [.addItem 0 1 5 2 1 0, .adjustStock 0 5 100 "subtract",
     .removeItem 0 1 1 0]
    (by decide) (by decide)
    (5, Product.mk 0 "Cola" 50 80 3)
    (by decide)

end

/-! ## C7: at most one open session per table -/

/-- The session-lifecycle operations the claim ranges over. -/
inductive SessionOp
  | start (user tableId : Nat) (now : ℤ)
  | pause (user sessionId : Nat) (now : ℤ)
  | resume (user sessionId : Nat) (now : ℤ)
  | finish (user sessionId : Nat) (notes : Option String) (now : ℤ)
  | cancel (user sessionId : Nat) (now : ℤ)

/-- One endpoint call; a rejected request leaves the store unchanged, and
a new session receives a store-generated fresh id. -/
def sessionStep (st : AppState) (op : SessionOp) : AppState :=
  match op with
  | .start u tid now =>
    match st.startSession u tid none st.freshSessionId now with
    | .ok r => r.1
    | .error _ => st
  | .pause u sid now =>
    match st.pauseSession u sid now with
    | .ok r => r
    | .error _ => st
  | .resume u sid now =>
    match st.resumeSession u sid now with
    | .ok r => r
    | .error _ => st
  | .finish u sid notes now =>
    match st.endSession u sid notes now with
    | .ok r => r
    | .error _ => st
  | .cancel u sid now =>
    match st.cancelSession u sid now with
    | .ok r => r
    | .error _ => st

theorem le_foldr_max {l : List Nat} {a : Nat} (h : a ∈ l) :
    a ≤ l.foldr max 0 := by
  induction l with
  | nil => cases h
  | cons b tl ih =>
    rcases List.mem_cons.mp h with rfl | htl
    · exact le_max_left _ _
    · exact le_trans (ih htl) (le_max_right _ _)

theorem freshSessionId_not_mem (st : AppState) :
    st.freshSessionId ∉ st.sessions.map Prod.fst := by
  intro hmem
  have h := le_foldr_max hmem
  simp only [AppState.freshSessionId] at h
  omega

theorem updateId_keys {α : Type} (l : List (Nat × α)) (id : Nat) (f : α → α) :
    (updateId l id f).map Prod.fst = l.map Prod.fst := by
  simp only [updateId, List.map_map]
  apply List.map_congr_left
  intro a _
  by_cases h : a.1 = id
  · simp [h]
  · simp [h]

theorem nodup_lookup_mem {α : Type} {l : List (Nat × α)} {id : Nat}
    {s v : α} (hnd : (l.map Prod.fst).Nodup) (hl : lookupId l id = some s)
    (hv : (id, v) ∈ l) : v = s := by
  induction l with
  | nil => cases hv
  | cons e tl ih =>
    rw [List.map_cons, List.nodup_cons] at hnd
    rw [lookupId_cons] at hl
    rcases List.mem_cons.mp hv with hve | hvt
    · have h1 : e.1 = id := by rw [← hve]
      rw [if_pos h1] at hl
      have h2 : v = e.2 := by rw [← hve]
      exact h2.trans (Option.some.inj hl)
    · by_cases h : e.1 = id
      · exfalso
        apply hnd.1
        rw [h]
        exact List.mem_map.mpr ⟨(id, v), hvt, rfl⟩
      · rw [if_neg h] at hl
        exact ih hnd.2 hl hvt

theorem countP_updateId_le {α : Type} (l : List (Nat × α)) (id : Nat)
    (f : α → α) (p : Nat × α → Bool)
    (hf : ∀ v, (id, v) ∈ l → p (id, f v) = true → p (id, v) = true) :
    (updateId l id f).countP p ≤ l.countP p := by
  unfold updateId
  rw [List.countP_map]
  apply List.countP_mono_left
  intro a ha hpa
  simp only [Function.comp_apply] at hpa
  by_cases h : a.1 = id
  · rw [if_pos h] at hpa
    have ha2 : (id, a.2) ∈ l := by
      rw [← h]
      exact ha
    have hpf : p (id, f a.2) = true := by
      rw [← h]
      exact hpa
    have hres := hf a.2 ha2 hpf
    rw [show a = (id, a.2) from by rw [← h]]
    exact hres
  · rw [if_neg h] at hpa
    exact hpa

theorem startSession_ok_inv (st : AppState) (u tid : Nat)
    (cn : Option String) (nid : Nat) (now : ℤ) (r : AppState × Nat)
    (h : st.startSession u tid cn nid now = .ok r) :
    st.getActiveSession tid = none ∧
    ∃ sess : Session, r.1.sessions = (nid, sess) :: st.sessions ∧
      sess.table = tid ∧ sess.status = .active := by
  simp only [AppState.startSession] at h
  split at h
  · exact absurd h (by simp)
  next t ht =>
    split at h
    · exact absurd h (by simp)
    split at h
    · exact absurd h (by simp)
    split at h
    · exact absurd h (by simp)
    split at h
    · exact absurd h (by simp)
    next hga =>
      have h1 := Except.ok.inj h
      refine ⟨hga, ?_⟩
      rw [← h1]
      exact ⟨_, rfl, rfl, rfl⟩

theorem pauseSession_ok_inv (st : AppState) (u sid : Nat) (now : ℤ)
    (r : AppState) (h : st.pauseSession u sid now = .ok r) :
    ∃ s, lookupId st.sessions sid = some s ∧ s.status = .active ∧
      r.sessions = updateId st.sessions sid
        (fun x => { x with status := .paused, pausedAt := some now }) := by
  simp only [AppState.pauseSession] at h
  split at h
  · exact absurd h (by simp)
  next s hsl =>
    split at h
    · exact absurd h (by simp)
    split at h
    · exact absurd h (by simp)
    next hst =>
      have h1 := Except.ok.inj h
      exact ⟨s, hsl, not_not.mp hst, by rw [← h1]⟩

theorem resumeSession_ok_inv (st : AppState) (u sid : Nat) (now : ℤ)
    (r : AppState) (h : st.resumeSession u sid now = .ok r) :
    ∃ s, lookupId st.sessions sid = some s ∧ s.status = .paused ∧
      r.sessions = updateId st.sessions sid (fun x => x.resumeTransform now) := by
  simp only [AppState.resumeSession] at h
  split at h
  · exact absurd h (by simp)
  next s hsl =>
    split at h
    · exact absurd h (by simp)
    split at h
    · exact absurd h (by simp)
    next hst =>
      have h1 := Except.ok.inj h
      exact ⟨s, hsl, not_not.mp hst, by rw [← h1]⟩

theorem endSession_ok_inv (st : AppState) (u sid : Nat)
    (notes : Option String) (now : ℤ) (r : AppState)
    (h : st.endSession u sid notes now = .ok r) :
    ∃ s, lookupId st.sessions sid = some s ∧
      r.sessions = updateId st.sessions sid
        (fun x => x.endTransform notes now) := by
  simp only [AppState.endSession] at h
  split at h
  · exact absurd h (by simp)
  next s hsl =>
    split at h
    · exact absurd h (by simp)
    split at h
    · exact absurd h (by simp)
    split at h
    · exact absurd h (by simp)
    have h1 := Except.ok.inj h
    exact ⟨s, hsl, by rw [← h1]⟩

theorem cancelSession_ok_inv (st : AppState) (u sid : Nat) (now : ℤ)
    (r : AppState) (h : st.cancelSession u sid now = .ok r) :
    ∃ s, lookupId st.sessions sid = some s ∧
      r.sessions = updateId st.sessions sid
        (fun _ => s.cancelTransform now) := by
  simp only [AppState.cancelSession] at h
  split at h
  · exact absurd h (by simp)
  next s hsl =>
    split at h
    · exact absurd h (by simp)
    split at h
    · exact absurd h (by simp)
    have h1 := Except.ok.inj h
    exact ⟨s, hsl, by rw [← h1]⟩

theorem cancelTransform_status (s : Session) (now : ℤ) :
    (s.cancelTransform now).status = .cancelled := rfl

/-- Invariant for C7: stored session ids are unique (the store generates
object ids) and each table has at most one open session. -/
def SessInv (st : AppState) : Prop :=
  (st.sessions.map Prod.fst).Nodup ∧
  ∀ tid, st.sessions.countP (isOpenFor tid) ≤ 1

theorem sessionStep_inv (st : AppState) (op : SessionOp) (h : SessInv st) :
    SessInv (sessionStep st op) := by
  cases op with
  | start u tid now =>
    cases hres : st.startSession u tid none st.freshSessionId now with
    | error e => simpa only [sessionStep, hres] using h
    | ok r =>
      have hstep : sessionStep st (.start u tid now) = r.1 := by
        simp only [sessionStep, hres]
      rw [hstep]
      obtain ⟨hga, sess, hsess, htab, hact⟩ :=
        startSession_ok_inv st u tid none st.freshSessionId now r hres
      constructor
      · rw [hsess, List.map_cons]
        exact List.nodup_cons.mpr ⟨freshSessionId_not_mem st, h.1⟩
      · intro tid'
        rw [hsess, List.countP_cons]
        by_cases htid : tid' = tid
        · subst htid
          have hzero : st.sessions.countP (isOpenFor tid') = 0 := by
            rw [List.countP_eq_zero]
            intro a ha
            have := List.find?_eq_none.mp hga a ha
            simpa using this
          have hone : isOpenFor tid' (st.freshSessionId, sess) = true := by
            simp [isOpenFor, htab, hact, SessionStatus.isNonTerminal]
          rw [hzero, hone]
          simp
        · have hzero : isOpenFor tid' (st.freshSessionId, sess) = false := by
            simp only [isOpenFor, decide_eq_false_iff_not]
            intro hc
            apply htid
            rw [← hc.1, htab]
          rw [hzero]
          simpa using h.2 tid'
  | pause u sid now =>
    cases hres : st.pauseSession u sid now with
    | error e => simpa only [sessionStep, hres] using h
    | ok r =>
      have hstep : sessionStep st (.pause u sid now) = r := by
        simp only [sessionStep, hres]
      rw [hstep]
      obtain ⟨s, hsl, hact, hsess⟩ := pauseSession_ok_inv st u sid now r hres
      constructor
      · rw [hsess, updateId_keys]
        exact h.1
      · intro tid'
        rw [hsess]
        refine le_trans (countP_updateId_le _ _ _ _ ?_) (h.2 tid')
        intro v hv hp
        have hvs := nodup_lookup_mem h.1 hsl hv
        subst hvs
        simp only [isOpenFor, decide_eq_true_eq] at hp ⊢
        exact ⟨hp.1, by rw [hact]; rfl⟩
  | resume u sid now =>
    cases hres : st.resumeSession u sid now with
    | error e => simpa only [sessionStep, hres] using h
    | ok r =>
      have hstep : sessionStep st (.resume u sid now) = r := by
        simp only [sessionStep, hres]
      rw [hstep]
      obtain ⟨s, hsl, hact, hsess⟩ := resumeSession_ok_inv st u sid now r hres
      constructor
      · rw [hsess, updateId_keys]
        exact h.1
      · intro tid'
        rw [hsess]
        refine le_trans (countP_updateId_le _ _ _ _ ?_) (h.2 tid')
        intro v hv hp
        have hvs := nodup_lookup_mem h.1 hsl hv
        subst hvs
        simp only [isOpenFor, decide_eq_true_eq] at hp ⊢
        have htb : (v.resumeTransform now).table = v.table := by
          simp only [Session.resumeTransform]
          split
          · split
            · rfl
            · rfl
          · rfl
        refine ⟨?_, by rw [hact]; rfl⟩
        rw [← htb]
        exact hp.1
  | finish u sid notes now =>
    cases hres : st.endSession u sid notes now with
    | error e => simpa only [sessionStep, hres] using h
    | ok r =>
      have hstep : sessionStep st (.finish u sid notes now) = r := by
        simp only [sessionStep, hres]
      rw [hstep]
      obtain ⟨s, hsl, hsess⟩ := endSession_ok_inv st u sid notes now r hres
      constructor
      · rw [hsess, updateId_keys]
        exact h.1
      · intro tid'
        rw [hsess]
        refine le_trans (countP_updateId_le _ _ _ _ ?_) (h.2 tid')
        intro v _ hp
        exfalso
        simp only [isOpenFor, endTransform_status, decide_eq_true_eq] at hp
        exact absurd hp.2 (by simp [SessionStatus.isNonTerminal])
  | cancel u sid now =>
    cases hres : st.cancelSession u sid now with
    | error e => simpa only [sessionStep, hres] using h
    | ok r =>
      have hstep : sessionStep st (.cancel u sid now) = r := by
        simp only [sessionStep, hres]
      rw [hstep]
      obtain ⟨s, hsl, hsess⟩ := cancelSession_ok_inv st u sid now r hres
      constructor
      · rw [hsess, updateId_keys]
        exact h.1
      · intro tid'
        rw [hsess]
        refine le_trans (countP_updateId_le _ _ _ _ ?_) (h.2 tid')
        intro v _ hp
        exfalso
        simp only [isOpenFor, cancelTransform_status, decide_eq_true_eq] at hp
        exact absurd hp.2 (by simp [SessionStatus.isNonTerminal])

theorem foldl_sessionStep_inv (st : AppState) (ops : List SessionOp)
    (h : SessInv st) : SessInv (ops.foldl sessionStep st) := by
  induction ops generalizing st with
  | nil => exact h
  | cons op ops ih =>
    rw [List.foldl_cons]
    exact ih (sessionStep st op) (sessionStep_inv st op h)

/-- C7 (confirmed): `startSession` fails whenever the table is not active,
is occupied, or an active/paused session already exists for that table;
and, starting from any store with unique session ids in which each table
has at most one open (`active`/`paused`) session, every sequence of
start/pause/resume/end/cancel endpoint calls preserves that at-most-one
property. -/
theorem C7_at_most_one_open_session (st : AppState) (ops : List SessionOp)
    (hnd : (st.sessions.map Prod.fst).Nodup)
    (hone : ∀ tid, st.sessions.countP (isOpenFor tid) ≤ 1) :
    (∀ (u tid nid : Nat) (cn : Option String) (now : ℤ) (t : Table),
      lookupId st.tables tid = some t →
      (t.status ≠ .active ∨ t.isOccupied = true ∨
        st.getActiveSession tid ≠ none) →
      ∃ e, st.startSession u tid cn nid now = .error e) ∧
    ∀ tid, ((ops.foldl sessionStep st).sessions.countP (isOpenFor tid)) ≤ 1 := by
  constructor
  · intro u tid nid cn now t ht hbad
    simp only [AppState.startSession, ht]
    by_cases h1 : t.owner ≠ u
    · rw [if_pos h1]
      exact ⟨_, rfl⟩
    rw [if_neg h1]
    by_cases h2 : t.status ≠ .active
    · rw [if_pos h2]
      exact ⟨_, rfl⟩
    rw [if_neg h2]
    by_cases h3 : t.isOccupied
    · rw [if_pos h3]
      exact ⟨_, rfl⟩
    rw [if_neg h3]
    cases hga : st.getActiveSession tid with
    | some x => exact ⟨_, rfl⟩
    | none =>
      exfalso
      rcases hbad with hb | hb | hb
      · exact hb (not_not.mp h2)
      · exact h3 hb
      · exact hb hga
  · exact (foldl_sessionStep_inv st ops ⟨hnd, hone⟩).2

theorem C7_at_most_one_open_session_witness :
    (∀ (u tid nid : Nat) (cn : Option String) (now : ℤ) (t : Table),
      lookupId c4State.tables tid = some t →
      (t.status ≠ .active ∨ t.isOccupied = true ∨
        c4State.getActiveSession tid ≠ none) →
      ∃ e, c4State.startSession u tid cn nid now = .error e) ∧
    ∀ tid, ((([SessionOp.pause 0 1 60000, SessionOp.resume 0 1 120000,
        SessionOp.cancel 0 1 180000,
        SessionOp.start 0 1 240000]).foldl sessionStep c4State).sessions.countP
        (isOpenFor tid)) ≤ 1 :=
  C7_at_most_one_open_session c4State
    [.pause 0 1 60000, .resume 0 1 120000, .cancel 0 1 180000,
     .start 0 1 240000]
    (by decide) (fun tid => List.countP_le_length _)

end Snooker
